import Mathlib

/-!
# Hospital Appointment & Triage System — verification development

Shallow embedding of `hospital_system.cpp` (Hospital Appointment & Triage
System): doctors with a singly linked slot list and a circular-buffer routine
queue, a global emergency triage priority queue, a patient registry, an undo
stack, and the `HospitalSystem` orchestrator operations
(`addDoctor`, `scheduleAddSlot`, `scheduleCancelSlot`, `patientUpsert`,
`enqueueRoutine`, `serveNext`, `triageInsert`, `undoPop`).

Modelling conventions:
* `std::unordered_map` is modelled as an association list with first-match
  lookup (`mfind`), replace-or-append assignment (`mset`, the semantics of
  `operator[] =`), and first-match erasure (`merase`).  Iteration order is
  never observed by the embedded operations.
* `std::priority_queue<TriagedToken, vector<TriagedToken>, greater<...>>`
  is modelled by its container semantics: the multiset of entries kept as a
  list sorted ascending under the strict order `TriagedToken.gt` (the
  comparator defined in the source); `top()` is the head, `pop()` drops it and
  `push` inserts in order (after entries it does not strictly precede, which
  preserves the relative order of tied entries exactly as observed through
  `top`/`pop`).
* The circular routine queue keeps the C++ representation: a buffer (a
  function from indices; `vector<Token>` of fixed length `capacity`),
  `frontIdx`, `rearIdx` (an `int` that can be `-1`), `sizeQ`.
* Out-parameters plus `bool` results become `Option`/pairs.
-/

set_option linter.unusedVariables false

namespace Hosp

inductive TokenType
  | ROUTINE
  | EMERGENCY
deriving DecidableEq, Repr

structure Patient where
  id : Int := 0
  name : String := ""
  age : Int := 0
  history : String := ""
  freq : Int := 0
deriving DecidableEq, Repr

structure Token where
  tokenId : Int := -1
  patientId : Int := -1
  doctorId : Int := -1
  slotId : Int := -1
  type : TokenType := TokenType.ROUTINE
deriving DecidableEq, Repr

structure SlotNode where
  slotId : Int
  startTime : String := ""
  endTime : String := ""
  taken : Bool := false
  tokenId : Int := -1
deriving DecidableEq, Repr

structure Doctor where
  id : Int := 0
  name : String := ""
  specialization : String := ""
  slots : List SlotNode := []
  circBuffer : Nat → Token := fun _ => {}
  frontIdx : Nat := 0
  rearIdx : Int := -1
  capacity : Nat := 10
  sizeQ : Nat := 0

def mkDoctor (i : Int) (nm spec : String) (cap : Nat) : Doctor :=
  { id := i, name := nm, specialization := spec, slots := [],
    circBuffer := fun _ => {}, frontIdx := 0, rearIdx := -1,
    capacity := cap, sizeQ := 0 }

def Doctor.isFull (D : Doctor) : Bool := D.sizeQ == D.capacity

def Doctor.isEmpty (D : Doctor) : Bool := D.sizeQ == 0

def Doctor.enqueueRoutine (D : Doctor) (t : Token) : Bool × Doctor :=
  if D.isFull then (false, D)
  else
    let r : Nat := ((D.rearIdx + 1) % (D.capacity : Int)).toNat
    (true, { D with rearIdx := (r : Int),
                    circBuffer := fun j => if j = r then t else D.circBuffer j,
                    sizeQ := D.sizeQ + 1 })

def Doctor.dequeueRoutine (D : Doctor) : Option (Token × Doctor) :=
  if D.isEmpty then none
  else
    let out := D.circBuffer D.frontIdx
    let D1 : Doctor :=
      { D with frontIdx := (D.frontIdx + 1) % D.capacity, sizeQ := D.sizeQ - 1 }
    some (out, if D1.sizeQ = 0 then { D1 with frontIdx := 0, rearIdx := -1 } else D1)

def Doctor.peekRoutine (D : Doctor) : Option Token :=
  if D.isEmpty then none else some (D.circBuffer D.frontIdx)

def Doctor.pendingCount (D : Doctor) : Nat := D.sizeQ

def Doctor.insertSlot (D : Doctor) (sid : Int) (s e : String) : Doctor :=
  { D with slots := D.slots ++ [{ slotId := sid, startTime := s, endTime := e }] }

def removeFirstSlot : List SlotNode → Int → Bool × List SlotNode
  | [], _ => (false, [])
  | n :: rest, sid =>
      if n.slotId = sid then (true, rest)
      else
        let p := removeFirstSlot rest sid
        (p.1, n :: p.2)

def Doctor.cancelSlot (D : Doctor) (sid : Int) : Bool × Doctor :=
  let p := removeFirstSlot D.slots sid
  (p.1, { D with slots := p.2 })

def Doctor.findSlot (D : Doctor) (sid : Int) : Option SlotNode :=
  D.slots.find? (fun n => n.slotId == sid)

def Doctor.nextFreeSlot (D : Doctor) : Option SlotNode :=
  D.slots.find? (fun n => !n.taken)

/-- Mutation through the `SlotNode*` returned by a first-match scan:
rewrite the first node satisfying `p`. -/
def updateFirstSlot (l : List SlotNode) (p : SlotNode → Bool) (f : SlotNode → SlotNode) :
    List SlotNode :=
  match l with
  | [] => []
  | n :: rest => if p n then f n :: rest else n :: updateFirstSlot rest p f

instance : Inhabited Token := ⟨{}⟩

structure TriagedToken where
  severity : Int
  token : Token
deriving DecidableEq, Repr

/-- `TriagedToken::operator>` from the source: severity first, then token id. -/
def TriagedToken.gt (a b : TriagedToken) : Bool :=
  if a.severity ≠ b.severity then decide (a.severity > b.severity)
  else decide (a.token.tokenId > b.token.tokenId)

/-- `priority_queue::push` on the sorted-ascending model of the min-heap. -/
def heapPush (x : TriagedToken) : List TriagedToken → List TriagedToken
  | [] => [x]
  | y :: ys => if y.gt x then x :: y :: ys else y :: heapPush x ys

inductive ActionType
  | BOOK
  | CANCEL
  | SERVE
  | REGISTER_PATIENT
  | TRIAGE_INSERT
deriving DecidableEq, Repr

structure Action where
  type : ActionType
  token : Token := {}
  slotId : Int := -1
  doctorId : Int := -1
  patientSnapshot : Patient := {}
  slotPreviouslyTaken : Bool := false
  severity : Int := 0
  patientIdForUpsert : Int := -1
  patientExistedBefore : Bool := false
deriving DecidableEq, Repr

/-- Association-list model of `unordered_map`: first-match lookup. -/
def mfind {α : Type} : List (Int × α) → Int → Option α
  | [], _ => none
  | (k1, v) :: rest, k => if k1 = k then some v else mfind rest k

/-- `map[k] = v`: replace the first binding of `k`, or append a new one. -/
def mset {α : Type} : List (Int × α) → Int → α → List (Int × α)
  | [], k, v => [(k, v)]
  | (k1, v1) :: rest, k, v =>
      if k1 = k then (k, v) :: rest else (k1, v1) :: mset rest k v

/-- `map.erase(k)`: drop the first binding of `k`. -/
def merase {α : Type} : List (Int × α) → Int → List (Int × α)
  | [], _ => []
  | (k1, v1) :: rest, k => if k1 = k then rest else (k1, v1) :: merase rest k

/-- `++patients[pid].freq`: `operator[]` default-constructs a `Patient` when
the key is absent, then the frequency is incremented. -/
def bumpFreq (ps : List (Int × Patient)) (pid : Int) : List (Int × Patient) :=
  match mfind ps pid with
  | some P => mset ps pid { P with freq := P.freq + 1 }
  | none => mset ps pid { freq := 1 }

structure HospitalSystem where
  doctors : List (Int × Doctor) := []
  patients : List (Int × Patient) := []
  triageHeap : List TriagedToken := []
  undoStack : List Action := []
  nextTokenId : Int := 1
  servedCount : Int := 0
  pendingCountTotal : Int := 0

namespace HospitalSystem

def addDoctor (s : HospitalSystem) (docId : Int) (nm spec : String) (queueCap : Nat) :
    Bool × HospitalSystem :=
  match mfind s.doctors docId with
  | some _ => (false, s)
  | none =>
      (true, { s with doctors := s.doctors ++ [(docId, mkDoctor docId nm spec queueCap)] })

def scheduleAddSlot (s : HospitalSystem) (doctorId slotId : Int) (st en : String) :
    Bool × HospitalSystem :=
  match mfind s.doctors doctorId with
  | none => (false, s)
  | some D =>
      (true, { s with doctors := mset s.doctors doctorId (D.insertSlot slotId st en) })

def scheduleCancelSlot (s : HospitalSystem) (doctorId slotId : Int) :
    Bool × HospitalSystem :=
  match mfind s.doctors doctorId with
  | none => (false, s)
  | some D =>
    match D.findSlot slotId with
    | none => (false, s)
    | some slot =>
      let sD : HospitalSystem × Doctor :=
        if slot.taken then
          let act : Action :=
            { type := ActionType.CANCEL,
              token := { tokenId := slot.tokenId, patientId := -1,
                         doctorId := doctorId, slotId := slotId,
                         type := TokenType.ROUTINE },
              slotId := slotId, doctorId := doctorId, slotPreviouslyTaken := true }
          ({ s with undoStack := act :: s.undoStack,
                    pendingCountTotal := s.pendingCountTotal - 1 },
           { D with slots := updateFirstSlot D.slots (fun n => n.slotId == slotId)
                              (fun n => { n with taken := false, tokenId := -1 }) })
        else (s, D)
      let p := sD.2.cancelSlot slotId
      (p.1, { sD.1 with doctors := mset sD.1.doctors doctorId p.2 })

def patientUpsert (s : HospitalSystem) (p : Patient) : HospitalSystem :=
  let existed := (mfind s.patients p.id).isSome
  let act : Action :=
    { type := ActionType.REGISTER_PATIENT,
      patientExistedBefore := existed,
      patientIdForUpsert := p.id,
      patientSnapshot := match mfind s.patients p.id with | some q => q | none => {} }
  { s with undoStack := act :: s.undoStack, patients := mset s.patients p.id p }

def patientGet (s : HospitalSystem) (patientId : Int) : Option Patient :=
  mfind s.patients patientId

def enqueueRoutine (s : HospitalSystem) (patientId doctorId : Int) (slotId : Int) :
    Int × HospitalSystem :=
  match mfind s.doctors doctorId with
  | none => (-1, s)
  | some D =>
    if (mfind s.patients patientId).isNone then (-1, s)
    else
      let tk : Token := { tokenId := s.nextTokenId, patientId := patientId,
                          doctorId := doctorId, slotId := slotId,
                          type := TokenType.ROUTINE }
      let s0 := { s with nextTokenId := s.nextTokenId + 1 }
      if slotId ≠ -1 then
        match D.findSlot slotId with
        | none => (-1, s0)
        | some slot =>
          if slot.taken then (-1, s0)
          else
            let D1 := { D with slots := updateFirstSlot D.slots
                                 (fun n => n.slotId == slotId)
                                 (fun n => { n with taken := true, tokenId := tk.tokenId }) }
            let act : Action := { type := ActionType.BOOK, token := tk,
                                  slotId := slotId, doctorId := doctorId }
            (tk.tokenId, { s0 with doctors := mset s0.doctors doctorId D1,
                                   undoStack := act :: s0.undoStack,
                                   pendingCountTotal := s0.pendingCountTotal + 1,
                                   patients := bumpFreq s0.patients patientId })
      else
        if D.isFull then (-1, s0)
        else
          let D1 := (D.enqueueRoutine tk).2
          let act : Action := { type := ActionType.BOOK, token := tk, doctorId := doctorId }
          (tk.tokenId, { s0 with doctors := mset s0.doctors doctorId D1,
                                 undoStack := act :: s0.undoStack,
                                 pendingCountTotal := s0.pendingCountTotal + 1,
                                 patients := bumpFreq s0.patients patientId })

def serveNext (s : HospitalSystem) (doctorId : Int) : Option Token × HospitalSystem :=
  match s.triageHeap with
  | tt :: restHeap =>
    let served : Token := { tt.token with type := TokenType.EMERGENCY }
    let act : Action := { type := ActionType.SERVE, token := served, severity := tt.severity }
    let s1 := { s with triageHeap := restHeap,
                       servedCount := s.servedCount + 1,
                       pendingCountTotal := s.pendingCountTotal - 1,
                       undoStack := act :: s.undoStack }
    (some served,
     if served.patientId ≠ -1 then { s1 with patients := bumpFreq s1.patients served.patientId }
     else s1)
  | [] =>
    match mfind s.doctors doctorId with
    | none => (none, s)
    | some D =>
      match D.dequeueRoutine with
      | none =>
        match D.slots.find? (fun n => n.taken) with
        | none => (none, s)
        | some sl =>
          let served : Token := { tokenId := sl.tokenId, patientId := -1,
                                  doctorId := doctorId, slotId := sl.slotId,
                                  type := TokenType.ROUTINE }
          let D1 := { D with slots := updateFirstSlot D.slots (fun n => n.taken)
                               (fun n => { n with taken := false, tokenId := -1 }) }
          let act : Action := { type := ActionType.SERVE, token := served }
          (some served, { s with doctors := mset s.doctors doctorId D1,
                                 servedCount := s.servedCount + 1,
                                 pendingCountTotal := s.pendingCountTotal - 1,
                                 undoStack := act :: s.undoStack })
      | some (tk, D1) =>
        let act : Action := { type := ActionType.SERVE, token := tk }
        (some tk, { s with doctors := mset s.doctors doctorId D1,
                           servedCount := s.servedCount + 1,
                           pendingCountTotal := s.pendingCountTotal - 1,
                           undoStack := act :: s.undoStack })

def triageInsert (s : HospitalSystem) (patientId severity : Int) :
    Bool × HospitalSystem :=
  if (mfind s.patients patientId).isNone then (false, s)
  else
    let tk : Token := { tokenId := s.nextTokenId, patientId := patientId,
                        doctorId := -1, slotId := -1, type := TokenType.EMERGENCY }
    let act : Action := { type := ActionType.TRIAGE_INSERT, token := tk, severity := severity }
    (true, { s with nextTokenId := s.nextTokenId + 1,
                    triageHeap := heapPush { severity := severity, token := tk } s.triageHeap,
                    undoStack := act :: s.undoStack,
                    pendingCountTotal := s.pendingCountTotal + 1,
                    patients := bumpFreq s.patients patientId })

end HospitalSystem

/-- The `while (D.dequeueRoutine(ot))` drain loop; the fuel `sizeQ` is exact
because every successful dequeue decrements `sizeQ` and the loop stops on
`isEmpty`. -/
def drainAux : Nat → Doctor → List Token → List Token × Doctor
  | 0, D, acc => (acc.reverse, D)
  | n + 1, D, acc =>
    match D.dequeueRoutine with
    | none => (acc.reverse, D)
    | some (t, D1) => drainAux n D1 (t :: acc)

def Doctor.drainQueue (D : Doctor) : List Token × Doctor := drainAux D.sizeQ D []

/-- The filtering done by the `BOOK` (FIFO) undo loop: keep everything but the
first token with the given id; the flag says whether a removal happened. -/
def removeFirstToken : List Token → Int → List Token × Bool
  | [], _ => ([], false)
  | t :: rest, tid =>
    if t.tokenId = tid then (rest, true)
    else
      let p := removeFirstToken rest tid
      (t :: p.1, p.2)

/-- The filtering done by the `TRIAGE_INSERT` undo drain loop. -/
def removeFirstTriaged : List TriagedToken → Int → List TriagedToken × Bool
  | [], _ => ([], false)
  | t :: rest, tid =>
    if t.token.tokenId = tid then (rest, true)
    else
      let p := removeFirstTriaged rest tid
      (t :: p.1, p.2)

namespace HospitalSystem

def undoPop (s : HospitalSystem) : Bool × HospitalSystem :=
  match s.undoStack with
  | [] => (false, s)
  | act :: rest =>
    let s0 := { s with undoStack := rest }
    match act.type with
    | ActionType.BOOK =>
      match mfind s0.doctors act.doctorId with
      | none => (false, s0)
      | some D =>
        if act.token.slotId ≠ -1 then
          match D.findSlot act.token.slotId with
          | some slot =>
            if slot.taken && slot.tokenId == act.token.tokenId then
              let D1 := { D with slots := updateFirstSlot D.slots
                                   (fun n => n.slotId == act.token.slotId)
                                   (fun n => { n with taken := false, tokenId := -1 }) }
              (true, { s0 with doctors := mset s0.doctors act.doctorId D1,
                               pendingCountTotal := s0.pendingCountTotal - 1 })
            else (false, s0)
          | none => (false, s0)
        else
          let dr := D.drainQueue
          let rm := removeFirstToken dr.1 act.token.tokenId
          let D2 := rm.1.foldl (fun d t => (Doctor.enqueueRoutine d t).2) dr.2
          (rm.2, { s0 with doctors := mset s0.doctors act.doctorId D2,
                           pendingCountTotal :=
                             if rm.2 then s0.pendingCountTotal - 1 else s0.pendingCountTotal })
    | ActionType.CANCEL =>
      match mfind s0.doctors act.doctorId with
      | none => (false, s0)
      | some D =>
        match D.findSlot act.slotId with
        | none => (false, s0)
        | some _ =>
          let D1 := { D with slots := updateFirstSlot D.slots
                               (fun n => n.slotId == act.slotId)
                               (fun n => { n with taken := true, tokenId := act.token.tokenId }) }
          (true, { s0 with doctors := mset s0.doctors act.doctorId D1,
                           pendingCountTotal := s0.pendingCountTotal + 1 })
    | ActionType.SERVE =>
      if act.token.type = TokenType.EMERGENCY then
        (true, { s0 with triageHeap :=
                           heapPush { severity := act.severity, token := act.token } s0.triageHeap,
                         pendingCountTotal := s0.pendingCountTotal + 1,
                         servedCount := s0.servedCount - 1 })
      else
        match mfind s0.doctors act.token.doctorId with
        | none => (false, s0)
        | some D =>
          let D1 := (D.enqueueRoutine act.token).2
          (true, { s0 with doctors := mset s0.doctors act.token.doctorId D1,
                           pendingCountTotal := s0.pendingCountTotal + 1,
                           servedCount := s0.servedCount - 1 })
    | ActionType.REGISTER_PATIENT =>
      if act.patientExistedBefore then
        (true, { s0 with patients := mset s0.patients act.patientIdForUpsert act.patientSnapshot })
      else
        (true, { s0 with patients := merase s0.patients act.patientIdForUpsert })
    | ActionType.TRIAGE_INSERT =>
      let rm := removeFirstTriaged s0.triageHeap act.token.tokenId
      let heap1 := rm.1.foldl (fun h x => heapPush x h) []
      (rm.2, { s0 with triageHeap := heap1,
                       pendingCountTotal :=
                         if rm.2 then s0.pendingCountTotal - 1 else s0.pendingCountTotal })

end HospitalSystem

/-! ## Queue observation and well-formedness -/

/-- The logical contents of the circular routine queue, front to rear. -/
def Doctor.toListQ (D : Doctor) : List Token :=
  (List.range D.sizeQ).map (fun i => D.circBuffer ((D.frontIdx + i) % D.capacity))

/-- Well-formedness of the circular-buffer representation, as maintained by the
constructor, `enqueueRoutine` and `dequeueRoutine`. -/
def Doctor.wfQ (D : Doctor) : Prop :=
  D.sizeQ ≤ D.capacity ∧
    (if D.sizeQ = 0 then D.frontIdx = 0 ∧ D.rearIdx = -1
     else D.frontIdx < D.capacity ∧
       D.rearIdx = ((D.frontIdx : Int) + (D.sizeQ : Int) - 1) % (D.capacity : Int))

instance : DecidablePred Doctor.wfQ := fun D => by
  unfold Doctor.wfQ
  infer_instance

/-- The canonical empty position the queue reaches after being drained. -/
def Doctor.resetQ (D : Doctor) : Doctor :=
  { D with frontIdx := 0, rearIdx := -1, sizeQ := 0 }

/-! ## Auxiliary definitions used by the stated properties -/

/-- Run a sequence of `triageInsert` requests (patient id, severity). -/
def runTriageInserts (s : HospitalSystem) (l : List (Int × Int)) : HospitalSystem :=
  l.foldl (fun st pr => (st.triageInsert pr.1 pr.2).2) s

/-- A provider with routine-queue capacity `cap` and the given slot ids,
inserted through `insertSlot` in order. -/
def docSlots (cap : Nat) (sids : List Int) : Doctor :=
  sids.foldl (fun D sid => D.insertSlot sid "s" "e") (mkDoctor 1 "Dr" "Gen" cap)

/-- A small base system used for concrete scenarios: one provider (id 1) and
three registered patients (ids 1, 2, 3). -/
def wsBase (cap : Nat) (sids : List Int) : HospitalSystem :=
  { doctors := [(1, docSlots cap sids)],
    patients := [(1, { id := 1, name := "A" }),
                 (2, { id := 2, name := "B" }),
                 (3, { id := 3, name := "C" })] }

/-- A reachable state whose undo ledger has a routine `SERVE` record on top
while that provider's FIFO (capacity 1) is full: slot-book twice, serve twice
through the slot fallback, then undo once (the undo re-enqueues the second
served token, filling the FIFO). -/
def overfillState : HospitalSystem :=
  ((((((wsBase 1 [201, 202]).enqueueRoutine 1 1 201).2.enqueueRoutine 1 1 202).2.serveNext
      1).2.serveNext 1).2.undoPop).2

/-- A capacity-0 provider scenario: slot 301 is booked and then served via the
slot-sequence fallback. -/
def capZeroServe : Option Token × HospitalSystem :=
  ((wsBase 0 [301]).enqueueRoutine 1 1 301).2.serveNext 1

/-- A state reached from the empty system by real operation calls only:
create provider 1 with FIFO capacity 1 and slots 201, 202, register patient 1,
book both slots, serve twice through the slot fallback, then undo twice.  The
first undo re-enqueues the second served token and fills the capacity-1 FIFO;
the second undo hits a routine `SERVE` record while the FIFO is full, so the
re-enqueue is silently dropped although the pending counter is incremented. -/
def c7Trace : HospitalSystem :=
  let s1 := (({} : HospitalSystem).addDoctor 1 "Dr" "Gen" 1).2
  let s2 := (s1.scheduleAddSlot 1 201 "s" "e").2
  let s3 := (s2.scheduleAddSlot 1 202 "s" "e").2
  let s4 := s3.patientUpsert { id := 1, name := "A" }
  let s5 := (s4.enqueueRoutine 1 1 201).2
  let s6 := (s5.enqueueRoutine 1 1 202).2
  let s7 := (s6.serveNext 1).2
  let s8 := (s7.serveNext 1).2
  let s9 := (s8.undoPop).2
  (s9.undoPop).2

/-- Number of slots with the given id in a slot sequence. -/
def countSlotId (l : List SlotNode) (sid : Int) : Nat :=
  (l.filter (fun n => n.slotId == sid)).length

/-- The forward (non-undo) operations of the orchestrator, for reachability
statements. -/
inductive SysOp where
  | addDoc (docId : Int) (nm spec : String) (cap : Nat)
  | addSlot (doctorId slotId : Int) (st en : String)
  | cancelSlot (doctorId slotId : Int)
  | upsert (p : Patient)
  | book (patientId doctorId slotId : Int)
  | triage (patientId severity : Int)
  | serve (doctorId : Int)

def applyOp (s : HospitalSystem) : SysOp → HospitalSystem
  | SysOp.addDoc i nm sp c => (s.addDoctor i nm sp c).2
  | SysOp.addSlot d sid st en => (s.scheduleAddSlot d sid st en).2
  | SysOp.cancelSlot d sid => (s.scheduleCancelSlot d sid).2
  | SysOp.upsert p => s.patientUpsert p
  | SysOp.book pid did sid => (s.enqueueRoutine pid did sid).2
  | SysOp.triage pid sev => (s.triageInsert pid sev).2
  | SysOp.serve d => (s.serveNext d).2

def runOps (s : HospitalSystem) (ops : List SysOp) : HospitalSystem :=
  ops.foldl applyOp s

/-- Number of occupied slots in a slot sequence (as an integer). -/
def countTaken (l : List SlotNode) : Int := ((l.filter (fun n => n.taken)).length : Int)

/-- Pending work attributable to one provider: queued tokens plus occupied
slots. -/
def doctorLoad (D : Doctor) : Int := (D.sizeQ : Int) + countTaken D.slots

/-- Total pending work across all structures. -/
def sysLoad (s : HospitalSystem) : Int :=
  ((s.doctors.map (fun pr => doctorLoad pr.2)).sum) + (s.triageHeap.length : Int)

/-- The C7 bookkeeping invariant: the derived load equals the reported pending
counter. -/
def loadInvariant (s : HospitalSystem) : Prop := sysLoad s = s.pendingCountTotal

instance : DecidablePred loadInvariant := fun s => by
  unfold loadInvariant
  infer_instance

/-! ## Association-list map lemmas -/

theorem mfind_mset_self {α : Type} (m : List (Int × α)) (k : Int) (v : α) :
    mfind (mset m k v) k = some v := by
  induction m with
  | nil => simp [mset, mfind]
  | cons hd tl ih =>
    obtain ⟨k1, v1⟩ := hd
    by_cases h : k1 = k <;> simp [mset, mfind, h, ih]

theorem mfind_mset_ne {α : Type} (m : List (Int × α)) (k k' : Int) (v : α)
    (h : k' ≠ k) : mfind (mset m k v) k' = mfind m k' := by
  induction m with
  | nil => simp [mset, mfind, Ne.symm h]
  | cons hd tl ih =>
    obtain ⟨k1, v1⟩ := hd
    by_cases h1 : k1 = k
    · subst h1
      simp [mset, mfind, Ne.symm h]
    · simp only [mset, if_neg h1, mfind]
      by_cases h2 : k1 = k' <;> simp [h2, ih]

theorem mset_mfind_self {α : Type} (m : List (Int × α)) (k : Int) (v : α)
    (h : mfind m k = some v) : mset m k v = m := by
  induction m with
  | nil => simp [mfind] at h
  | cons hd tl ih =>
    obtain ⟨k1, v1⟩ := hd
    by_cases h1 : k1 = k
    · subst h1
      simp [mfind] at h
      simp [mset, h]
    · simp [mfind, h1] at h
      simp [mset, h1, ih h]

theorem mset_mset {α : Type} (m : List (Int × α)) (k : Int) (v v' : α) :
    mset (mset m k v) k v' = mset m k v' := by
  induction m with
  | nil => simp [mset]
  | cons hd tl ih =>
    obtain ⟨k1, v1⟩ := hd
    by_cases h1 : k1 = k <;> simp [mset, h1, ih]

theorem mset_of_mfind_none {α : Type} (m : List (Int × α)) (k : Int) (v : α)
    (h : mfind m k = none) : mset m k v = m ++ [(k, v)] := by
  induction m with
  | nil => simp [mset]
  | cons hd tl ih =>
    obtain ⟨k1, v1⟩ := hd
    by_cases h1 : k1 = k
    · simp [mfind, h1] at h
    · simp [mfind, h1] at h
      simp [mset, h1, ih h]

theorem merase_append_of_mfind_none {α : Type} (m : List (Int × α)) (k : Int) (v : α)
    (h : mfind m k = none) : merase (m ++ [(k, v)]) k = m := by
  induction m with
  | nil => simp [merase]
  | cons hd tl ih =>
    obtain ⟨k1, v1⟩ := hd
    by_cases h1 : k1 = k
    · simp [mfind, h1] at h
    · simp [mfind, h1] at h
      simp [merase, h1, ih h]

/-! ## Triage-order lemmas -/

theorem TriagedToken.gt_iff (a b : TriagedToken) :
    a.gt b = true ↔
      (b.severity < a.severity ∨
        (a.severity = b.severity ∧ b.token.tokenId < a.token.tokenId)) := by
  unfold TriagedToken.gt
  by_cases h : a.severity = b.severity
  · rw [if_neg (by simp [h])]
    simp only [decide_eq_true_eq]
    omega
  · rw [if_pos h]
    simp only [decide_eq_true_eq]
    omega

theorem TriagedToken.gt_false_iff (a b : TriagedToken) :
    a.gt b = false ↔
      (a.severity < b.severity ∨
        (a.severity = b.severity ∧ a.token.tokenId ≤ b.token.tokenId)) := by
  rw [← Bool.not_eq_true, TriagedToken.gt_iff]
  omega

theorem TriagedToken.gt_asymm (a b : TriagedToken) (h : a.gt b = true) :
    b.gt a = false := by
  rw [TriagedToken.gt_iff] at h
  rw [TriagedToken.gt_false_iff]
  omega

theorem TriagedToken.gt_false_trans (a b c : TriagedToken)
    (h1 : a.gt b = false) (h2 : b.gt c = false) : a.gt c = false := by
  rw [TriagedToken.gt_false_iff] at h1 h2 ⊢
  omega

theorem TriagedToken.gt_of_gt_false_of_id_ne (a b : TriagedToken)
    (h : a.gt b = false) (hid : a.token.tokenId ≠ b.token.tokenId) :
    b.gt a = true := by
  rw [TriagedToken.gt_false_iff] at h
  rw [TriagedToken.gt_iff]
  omega

/-- The model invariant of the `priority_queue` contents: ascending under the
comparator (the head is a minimum). -/
def heapSorted (l : List TriagedToken) : Prop :=
  List.Pairwise (fun a b => a.gt b = false) l

instance : DecidablePred heapSorted := fun l => by
  unfold heapSorted
  infer_instance

theorem mem_heapPush {x z : TriagedToken} {l : List TriagedToken} :
    z ∈ heapPush x l ↔ z = x ∨ z ∈ l := by
  induction l with
  | nil => simp [heapPush]
  | cons y ys ih =>
    unfold heapPush
    by_cases h : y.gt x = true
    · rw [if_pos h]
      simp only [List.mem_cons]
    · rw [if_neg h]
      simp only [List.mem_cons, ih]
      tauto

theorem heapPush_sorted {x : TriagedToken} {l : List TriagedToken}
    (hs : heapSorted l) : heapSorted (heapPush x l) := by
  induction l with
  | nil => simp [heapPush, heapSorted]
  | cons y ys ih =>
    rw [heapSorted, List.pairwise_cons] at hs
    obtain ⟨hy, hys⟩ := hs
    unfold heapPush
    by_cases h : y.gt x = true
    · rw [if_pos h]
      rw [heapSorted, List.pairwise_cons]
      refine ⟨?_, ?_⟩
      · intro z hz
        rcases List.mem_cons.mp hz with hz | hz
        · rw [hz]
          exact TriagedToken.gt_asymm y x h
        · exact TriagedToken.gt_false_trans x y z (TriagedToken.gt_asymm y x h) (hy z hz)
      · rw [List.pairwise_cons]
        exact ⟨hy, hys⟩
    · rw [if_neg h]
      have hf : y.gt x = false := by
        cases hgt : y.gt x
        · rfl
        · exact absurd hgt h
      rw [heapSorted, List.pairwise_cons]
      refine ⟨?_, ih hys⟩
      intro z hz
      rcases mem_heapPush.mp hz with hz | hz
      · rw [hz]; exact hf
      · exact hy z hz

theorem heapPush_of_ge {x : TriagedToken} {l : List TriagedToken}
    (h : ∀ y ∈ l, y.gt x = false) : heapPush x l = l ++ [x] := by
  induction l with
  | nil => simp [heapPush]
  | cons y ys ih =>
    have hy : y.gt x = false := h y (by simp)
    unfold heapPush
    rw [if_neg (by simp [hy])]
    simp only [List.cons_append, List.cons.injEq, true_and]
    exact ih (fun z hz => h z (by simp [hz]))

theorem foldl_heapPush_aux (l acc : List TriagedToken)
    (hs : heapSorted (acc ++ l)) :
    l.foldl (fun h x => heapPush x h) acc = acc ++ l := by
  induction l generalizing acc with
  | nil => simp
  | cons x xs ih =>
    have hpush : heapPush x acc = acc ++ [x] := by
      apply heapPush_of_ge
      intro y hy
      rw [heapSorted, List.pairwise_append] at hs
      exact hs.2.2 y hy x (by simp)
    simp only [List.foldl_cons, hpush]
    rw [ih (acc ++ [x]) (by simpa using hs)]
    simp

/-- Draining a sorted heap and re-pushing every entry reproduces it exactly. -/
theorem foldl_heapPush_sorted (l : List TriagedToken) (hs : heapSorted l) :
    l.foldl (fun h x => heapPush x h) [] = l := by
  simpa using foldl_heapPush_aux l [] (by simpa using hs)

theorem heapPush_cons_of_head_gt (x y : TriagedToken) (ys : List TriagedToken)
    (h : y.gt x = true) : heapPush x (y :: ys) = x :: y :: ys := by
  simp [heapPush, h]

/-! ## Circular-queue lemmas -/

theorem Doctor.toListQ_eq_nil (D : Doctor) (h : D.sizeQ = 0) : D.toListQ = [] := by
  simp [Doctor.toListQ, h]

theorem Doctor.toListQ_length (D : Doctor) : D.toListQ.length = D.sizeQ := by
  simp [Doctor.toListQ]

theorem Doctor.enqueueRoutine_full (D : Doctor) (t : Token) (h : D.sizeQ = D.capacity) :
    D.enqueueRoutine t = (false, D) := by
  simp [Doctor.enqueueRoutine, Doctor.isFull, h]

theorem Doctor.enqueueRoutine_eq (D : Doctor) (t : Token) (hwf : D.wfQ)
    (hlt : D.sizeQ < D.capacity) :
    D.enqueueRoutine t =
      (true, { D with
                rearIdx := (((D.frontIdx + D.sizeQ) % D.capacity : Nat) : Int),
                circBuffer := fun j =>
                  if j = (D.frontIdx + D.sizeQ) % D.capacity then t else D.circBuffer j,
                sizeQ := D.sizeQ + 1 }) := by
  have hnotfull : D.isFull = false := by
    simp only [Doctor.isFull, beq_eq_false_iff_ne, ne_eq]
    omega
  have hr : ((D.rearIdx + 1) % (D.capacity : Int)).toNat
      = (D.frontIdx + D.sizeQ) % D.capacity := by
    obtain ⟨hle, hrest⟩ := hwf
    by_cases hsz : D.sizeQ = 0
    · rw [if_pos hsz] at hrest
      obtain ⟨hf, hrear⟩ := hrest
      rw [hrear, hsz, hf]
      simp
    · rw [if_neg hsz] at hrest
      obtain ⟨hf, hrear⟩ := hrest
      rw [hrear, Int.emod_add_emod]
      have harg : (D.frontIdx : Int) + (D.sizeQ : Int) - 1 + 1
          = ((D.frontIdx + D.sizeQ : Nat) : Int) := by
        push_cast
        ring
      rw [harg, ← Int.natCast_mod, Int.toNat_natCast]
  unfold Doctor.enqueueRoutine
  rw [hnotfull]
  simp only [Bool.false_eq_true, if_false, hr]

theorem Doctor.enqueueRoutine_spec (D : Doctor) (t : Token) (hwf : D.wfQ)
    (hlt : D.sizeQ < D.capacity) :
    (D.enqueueRoutine t).1 = true ∧
    (D.enqueueRoutine t).2.wfQ ∧
    (D.enqueueRoutine t).2.toListQ = D.toListQ ++ [t] ∧
    (D.enqueueRoutine t).2.sizeQ = D.sizeQ + 1 ∧
    (D.enqueueRoutine t).2.slots = D.slots ∧
    (D.enqueueRoutine t).2.capacity = D.capacity ∧
    (D.enqueueRoutine t).2.frontIdx = D.frontIdx ∧
    (D.enqueueRoutine t).2.id = D.id ∧
    (D.enqueueRoutine t).2.name = D.name ∧
    (D.enqueueRoutine t).2.specialization = D.specialization := by
  have hcap : 0 < D.capacity := lt_of_le_of_lt (Nat.zero_le _) hlt
  have hfront : D.frontIdx < D.capacity := by
    obtain ⟨hle, hrest⟩ := hwf
    by_cases hsz : D.sizeQ = 0
    · rw [if_pos hsz] at hrest
      omega
    · rw [if_neg hsz] at hrest
      exact hrest.1
  rw [Doctor.enqueueRoutine_eq D t hwf hlt]
  refine ⟨rfl, ⟨?_, ?_⟩, ?_, rfl, rfl, rfl, rfl, rfl, rfl, rfl⟩
  · show D.sizeQ + 1 ≤ D.capacity
    omega
  · rw [if_neg (by show ¬(D.sizeQ + 1 = 0); omega)]
    refine ⟨hfront, ?_⟩
    show (((D.frontIdx + D.sizeQ) % D.capacity : Nat) : Int)
        = ((D.frontIdx : Int) + ((D.sizeQ + 1 : Nat) : Int) - 1) % (D.capacity : Int)
    push_cast
    congr 1
    ring
  · unfold Doctor.toListQ
    show (List.range (D.sizeQ + 1)).map
        (fun i => if (D.frontIdx + i) % D.capacity = (D.frontIdx + D.sizeQ) % D.capacity
                  then t else D.circBuffer ((D.frontIdx + i) % D.capacity))
      = (List.range D.sizeQ).map
          (fun i => D.circBuffer ((D.frontIdx + i) % D.capacity)) ++ [t]
    rw [List.range_succ, List.map_append, List.map_cons, List.map_nil]
    congr 1
    · apply List.map_congr_left
      intro i hi
      rw [List.mem_range] at hi
      have hne : (D.frontIdx + i) % D.capacity ≠ (D.frontIdx + D.sizeQ) % D.capacity := by
        intro heq
        have h1 : (D.frontIdx + i) ≡ (D.frontIdx + D.sizeQ) [MOD D.capacity] := heq
        have h2 : i ≡ D.sizeQ [MOD D.capacity] := Nat.ModEq.add_left_cancel' D.frontIdx h1
        have h3 : i % D.capacity = D.sizeQ % D.capacity := h2
        rw [Nat.mod_eq_of_lt (lt_trans hi hlt), Nat.mod_eq_of_lt hlt] at h3
        omega
      rw [if_neg hne]
    · simp

theorem Doctor.dequeueRoutine_none (D : Doctor) (h : D.sizeQ = 0) :
    D.dequeueRoutine = none := by
  simp [Doctor.dequeueRoutine, Doctor.isEmpty, h]

theorem Doctor.dequeueRoutine_spec (D : Doctor) (hwf : D.wfQ) (hne : D.sizeQ ≠ 0) :
    ∃ D1, D.dequeueRoutine = some (D.circBuffer D.frontIdx, D1) ∧ D1.wfQ ∧
      D.toListQ = D.circBuffer D.frontIdx :: D1.toListQ ∧
      D1.sizeQ = D.sizeQ - 1 ∧ D1.slots = D.slots ∧ D1.capacity = D.capacity ∧
      D1.circBuffer = D.circBuffer ∧ D1.resetQ = D.resetQ ∧
      D1.id = D.id ∧ D1.name = D.name ∧ D1.specialization = D.specialization := by
  obtain ⟨hle, hrest⟩ := hwf
  rw [if_neg hne] at hrest
  obtain ⟨hf, hrear⟩ := hrest
  have hcap : 0 < D.capacity := lt_of_le_of_lt (Nat.zero_le _) hf
  have hempty : D.isEmpty = false := by
    simp only [Doctor.isEmpty, beq_eq_false_iff_ne, ne_eq]
    omega
  have htl : D.toListQ
      = D.circBuffer D.frontIdx ::
        (List.range (D.sizeQ - 1)).map
          (fun i => D.circBuffer (((D.frontIdx + 1) % D.capacity + i) % D.capacity)) := by
    unfold Doctor.toListQ
    obtain ⟨k, hk⟩ : ∃ k, D.sizeQ = k + 1 := ⟨D.sizeQ - 1, by omega⟩
    rw [hk]
    rw [List.range_succ_eq_map, List.map_cons]
    congr 1
    · rw [Nat.add_zero, Nat.mod_eq_of_lt hf]
    · rw [List.map_map]
      simp only [hk, Nat.add_sub_cancel]
      apply List.map_congr_left
      intro i hi
      have hmod : ((D.frontIdx + 1) % D.capacity + i) % D.capacity
          = (D.frontIdx + (i + 1)) % D.capacity := by
        rw [Nat.mod_add_mod]
        congr 1
        omega
      simp only [Function.comp_apply, hmod]
  by_cases hone : D.sizeQ = 1
  · refine ⟨D.resetQ, ?_, ?_, ?_, ?_, rfl, rfl, rfl, rfl, rfl, rfl, rfl⟩
    · unfold Doctor.dequeueRoutine
      rw [hempty]
      simp only [Bool.false_eq_true, if_false, hone]
      rfl
    · refine ⟨by simp [Doctor.resetQ], ?_⟩
      have h0 : D.resetQ.sizeQ = 0 := rfl
      rw [if_pos h0]
      exact ⟨rfl, rfl⟩
    · rw [htl, hone]
      simp [Doctor.resetQ, Doctor.toListQ]
    · simp [Doctor.resetQ, hone]
  · obtain ⟨k, hk⟩ : ∃ k, D.sizeQ = k + 2 := ⟨D.sizeQ - 2, by omega⟩
    refine ⟨{ D with frontIdx := (D.frontIdx + 1) % D.capacity, sizeQ := D.sizeQ - 1 },
      ?_, ⟨?_, ?_⟩, ?_, rfl, rfl, rfl, rfl, rfl, rfl, rfl, rfl⟩
    · unfold Doctor.dequeueRoutine
      rw [hempty]
      simp only [Bool.false_eq_true, if_false]
      rw [if_neg (by show ¬(D.sizeQ - 1 = 0); omega)]
    · show D.sizeQ - 1 ≤ D.capacity
      omega
    · rw [if_neg (by show ¬(D.sizeQ - 1 = 0); omega)]
      refine ⟨Nat.mod_lt _ hcap, ?_⟩
      show D.rearIdx
          = ((((D.frontIdx + 1) % D.capacity : Nat) : Int) + ((D.sizeQ - 1 : Nat) : Int) - 1)
            % (D.capacity : Int)
      rw [hrear, hk]
      have hsub : ((k + 2 - 1 : Nat) : Int) = (k : Int) + 1 := by
        norm_num
      rw [hsub, Int.natCast_mod]
      push_cast
      have harg : ((D.frontIdx : Int) + 1) % (D.capacity : Int) + ((k : Int) + 1) - 1
          = ((D.frontIdx : Int) + 1) % (D.capacity : Int) + (k : Int) := by
        ring
      rw [harg, Int.emod_add_emod]
      congr 1
      ring
    · exact htl

theorem Doctor.resetQ_wfQ (D : Doctor) : D.resetQ.wfQ := by
  refine ⟨by simp [Doctor.resetQ], ?_⟩
  have h0 : D.resetQ.sizeQ = 0 := rfl
  rw [if_pos h0]
  exact ⟨rfl, rfl⟩

theorem drainAux_spec (n : Nat) : ∀ (D : Doctor) (acc : List Token), D.wfQ → D.sizeQ = n →
    drainAux n D acc = (acc.reverse ++ D.toListQ, D.resetQ) := by
  induction n with
  | zero =>
    intro D acc hwf hsz
    have hres : D.resetQ = D := by
      obtain ⟨hle, hrest⟩ := hwf
      rw [if_pos hsz] at hrest
      obtain ⟨hff, hrr⟩ := hrest
      unfold Doctor.resetQ
      cases D
      simp_all
    simp only [drainAux]
    rw [hres, Doctor.toListQ_eq_nil D hsz]
    simp
  | succ k ih =>
    intro D acc hwf hsz
    obtain ⟨D1, hdq, hwf1, htl, hsz1, _, _, _, hreset, _, _, _⟩ :=
      D.dequeueRoutine_spec hwf (by omega)
    simp only [drainAux, hdq]
    rw [ih D1 (D.circBuffer D.frontIdx :: acc) hwf1 (by omega)]
    rw [htl, hreset]
    simp

theorem Doctor.drainQueue_spec (D : Doctor) (hwf : D.wfQ) :
    D.drainQueue = (D.toListQ, D.resetQ) := by
  have h := drainAux_spec D.sizeQ D [] hwf rfl
  rw [Doctor.drainQueue, h]
  simp

theorem Doctor.foldl_enqueue_spec (ts : List Token) :
    ∀ (D : Doctor), D.wfQ → D.sizeQ + ts.length ≤ D.capacity →
    (ts.foldl (fun d t => (Doctor.enqueueRoutine d t).2) D).wfQ ∧
    (ts.foldl (fun d t => (Doctor.enqueueRoutine d t).2) D).toListQ = D.toListQ ++ ts ∧
    (ts.foldl (fun d t => (Doctor.enqueueRoutine d t).2) D).sizeQ = D.sizeQ + ts.length ∧
    (ts.foldl (fun d t => (Doctor.enqueueRoutine d t).2) D).slots = D.slots ∧
    (ts.foldl (fun d t => (Doctor.enqueueRoutine d t).2) D).capacity = D.capacity ∧
    (ts.foldl (fun d t => (Doctor.enqueueRoutine d t).2) D).id = D.id ∧
    (ts.foldl (fun d t => (Doctor.enqueueRoutine d t).2) D).name = D.name ∧
    (ts.foldl (fun d t => (Doctor.enqueueRoutine d t).2) D).specialization
      = D.specialization := by
  induction ts with
  | nil =>
    intro D hwf hle
    simp [hwf]
  | cons t ts ih =>
    intro D hwf hle
    simp only [List.length_cons] at hle
    obtain ⟨_, hwf1, htl1, hsz1, hslots1, hcap1, _, hid1, hname1, hspec1⟩ :=
      D.enqueueRoutine_spec t hwf (by omega)
    simp only [List.foldl_cons]
    obtain ⟨h1, h2, h3, h4, h5, h6, h7, h8⟩ :=
      ih (D.enqueueRoutine t).2 hwf1 (by rw [hsz1, hcap1]; omega)
    refine ⟨h1, ?_, ?_, ?_, ?_, ?_, ?_, ?_⟩
    · rw [h2, htl1]
      simp
    · rw [h3, hsz1]
      simp [Nat.add_assoc, Nat.add_comm 1 ts.length]
    · rw [h4, hslots1]
    · rw [h5, hcap1]
    · rw [h6, hid1]
    · rw [h7, hname1]
    · rw [h8, hspec1]

theorem mkDoctor_wfQ (i : Int) (nm spec : String) (cap : Nat) :
    (mkDoctor i nm spec cap).wfQ := by
  refine ⟨by simp [mkDoctor], ?_⟩
  have h0 : (mkDoctor i nm spec cap).sizeQ = 0 := rfl
  rw [if_pos h0]
  exact ⟨rfl, rfl⟩

/-! ## serveNext on a non-empty triage heap -/

theorem serveNext_heap_head (s : HospitalSystem) (d : Int) (tt : TriagedToken)
    (rest : List TriagedToken) (hheap : s.triageHeap = tt :: rest) :
    (s.serveNext d).1 = some { tt.token with type := TokenType.EMERGENCY } ∧
    (s.serveNext d).2.doctors = s.doctors ∧
    (s.serveNext d).2.triageHeap = rest ∧
    (s.serveNext d).2.undoStack
      = { type := ActionType.SERVE,
          token := { tt.token with type := TokenType.EMERGENCY },
          severity := tt.severity } :: s.undoStack ∧
    (s.serveNext d).2.pendingCountTotal = s.pendingCountTotal - 1 ∧
    (s.serveNext d).2.servedCount = s.servedCount + 1 ∧
    (s.serveNext d).2.nextTokenId = s.nextTokenId ∧
    ((s.serveNext d).2.patients
      = if tt.token.patientId ≠ -1 then bumpFreq s.patients tt.token.patientId
        else s.patients) ∧
    (∀ d2 : Int, s.serveNext d2 = s.serveNext d) := by
  have h9 : ∀ d2 : Int, s.serveNext d2 = s.serveNext d := by
    intro d2
    simp only [HospitalSystem.serveNext, hheap]
  refine ⟨?_, ?_, ?_, ?_, ?_, ?_, ?_, ?_, h9⟩ <;>
    simp only [HospitalSystem.serveNext, hheap] <;>
    split <;>
    simp

theorem heap_head_min (tt : TriagedToken) (rest : List TriagedToken)
    (hs : heapSorted (tt :: rest)) :
    ∀ e ∈ tt :: rest,
      tt.severity < e.severity ∨
        (tt.severity = e.severity ∧ tt.token.tokenId ≤ e.token.tokenId) := by
  intro e he
  rcases List.mem_cons.mp he with he | he
  · rw [he]
    right
    exact ⟨rfl, le_refl _⟩
  · rw [heapSorted, List.pairwise_cons] at hs
    have h := hs.1 e he
    rw [TriagedToken.gt_false_iff] at h
    omega

theorem triageInsert_sorted (s : HospitalSystem) (pid sev : Int)
    (hs : heapSorted s.triageHeap) :
    heapSorted ((s.triageInsert pid sev).2).triageHeap := by
  unfold HospitalSystem.triageInsert
  cases hp : (mfind s.patients pid).isNone
  · simp only [Bool.false_eq_true, if_false]
    exact heapPush_sorted hs
  · simp only [if_true]
    exact hs

theorem runTriageInserts_sorted (l : List (Int × Int)) :
    ∀ (st : HospitalSystem), heapSorted st.triageHeap →
      heapSorted (runTriageInserts st l).triageHeap := by
  induction l with
  | nil =>
    intro st h
    exact h
  | cons pr prs ih =>
    intro st h
    simp only [runTriageInserts, List.foldl_cons]
    exact ih _ (triageInsert_sorted st pr.1 pr.2 h)

/-! ## bookRoutine equations -/

theorem enqueueRoutine_fifo_eq (s : HospitalSystem) (pid did : Int)
    (D : Doctor) (P : Patient)
    (hd : mfind s.doctors did = some D) (hp : mfind s.patients pid = some P)
    (hnf : D.sizeQ ≠ D.capacity) :
    s.enqueueRoutine pid did (-1)
      = (s.nextTokenId,
         { s with
            doctors := mset s.doctors did
              (D.enqueueRoutine { tokenId := s.nextTokenId, patientId := pid,
                                  doctorId := did, slotId := -1,
                                  type := TokenType.ROUTINE }).2,
            undoStack := { type := ActionType.BOOK,
                           token := { tokenId := s.nextTokenId, patientId := pid,
                                      doctorId := did, slotId := -1,
                                      type := TokenType.ROUTINE },
                           doctorId := did } :: s.undoStack,
            nextTokenId := s.nextTokenId + 1,
            pendingCountTotal := s.pendingCountTotal + 1,
            patients := bumpFreq s.patients pid }) := by
  have hfull : D.isFull = false := by
    simp only [Doctor.isFull, beq_eq_false_iff_ne, ne_eq]
    omega
  unfold HospitalSystem.enqueueRoutine
  simp only [hd, hp, Option.isNone_some, Bool.false_eq_true, if_false, hfull]
  simp

theorem enqueueRoutine_fifo_full (s : HospitalSystem) (pid did : Int)
    (D : Doctor) (P : Patient)
    (hd : mfind s.doctors did = some D) (hp : mfind s.patients pid = some P)
    (hfull : D.sizeQ = D.capacity) :
    s.enqueueRoutine pid did (-1)
      = (-1, { s with nextTokenId := s.nextTokenId + 1 }) := by
  have hful : D.isFull = true := by
    simp only [Doctor.isFull, beq_iff_eq]
    omega
  unfold HospitalSystem.enqueueRoutine
  simp only [hd, hp, Option.isNone_some, Bool.false_eq_true, if_false, hful]
  simp

theorem enqueueRoutine_slot_eq (s : HospitalSystem) (pid did sid : Int)
    (D : Doctor) (P : Patient) (sl : SlotNode)
    (hd : mfind s.doctors did = some D) (hp : mfind s.patients pid = some P)
    (hsid : sid ≠ -1) (hsl : D.findSlot sid = some sl) (hfree : sl.taken = false) :
    s.enqueueRoutine pid did sid
      = (s.nextTokenId,
         { s with
            doctors := mset s.doctors did
              ({ D with slots := (updateFirstSlot D.slots (fun n => n.slotId == sid)
                  (fun n => { n with taken := true, tokenId := s.nextTokenId })) }),
            undoStack := { type := ActionType.BOOK,
                           token := { tokenId := s.nextTokenId, patientId := pid,
                                      doctorId := did, slotId := sid,
                                      type := TokenType.ROUTINE },
                           slotId := sid, doctorId := did } :: s.undoStack,
            nextTokenId := s.nextTokenId + 1,
            pendingCountTotal := s.pendingCountTotal + 1,
            patients := bumpFreq s.patients pid }) := by
  unfold HospitalSystem.enqueueRoutine
  simp only [hd, hp, Option.isNone_some, Bool.false_eq_true, if_false, hsl,
    if_pos hsid, hfree]

/-! ## serveNext / undoPop equations for the routine paths -/

theorem serveNext_slot_fallback_eq (s : HospitalSystem) (d : Int) (D : Doctor)
    (sl : SlotNode) (hheap : s.triageHeap = [])
    (hd : mfind s.doctors d = some D) (hsz : D.sizeQ = 0)
    (hfind : D.slots.find? (fun n => n.taken) = some sl) :
    s.serveNext d
      = (some { tokenId := sl.tokenId, patientId := -1, doctorId := d,
                slotId := sl.slotId, type := TokenType.ROUTINE },
         { s with
            doctors := mset s.doctors d
              ({ D with slots := (updateFirstSlot D.slots (fun n => n.taken)
                  (fun n => { n with taken := false, tokenId := -1 })) }),
            servedCount := s.servedCount + 1,
            pendingCountTotal := s.pendingCountTotal - 1,
            undoStack := { type := ActionType.SERVE,
                           token := { tokenId := sl.tokenId, patientId := -1,
                                      doctorId := d, slotId := sl.slotId,
                                      type := TokenType.ROUTINE } } :: s.undoStack }) := by
  unfold HospitalSystem.serveNext
  simp only [hheap, hd, Doctor.dequeueRoutine_none D hsz, hfind]

theorem serveNext_fifo_eq (s : HospitalSystem) (d : Int) (D : Doctor)
    (tk : Token) (D1 : Doctor) (hheap : s.triageHeap = [])
    (hd : mfind s.doctors d = some D)
    (hdq : D.dequeueRoutine = some (tk, D1)) :
    s.serveNext d
      = (some tk,
         { s with
            doctors := mset s.doctors d D1,
            servedCount := s.servedCount + 1,
            pendingCountTotal := s.pendingCountTotal - 1,
            undoStack := { type := ActionType.SERVE, token := tk } :: s.undoStack }) := by
  unfold HospitalSystem.serveNext
  simp only [hheap, hd, hdq]

theorem undoPop_serve_routine_eq (s : HospitalSystem) (act : Action)
    (rest : List Action) (D : Doctor)
    (hstack : s.undoStack = act :: rest)
    (htype : act.type = ActionType.SERVE)
    (hrt : act.token.type = TokenType.ROUTINE)
    (hd : mfind s.doctors act.token.doctorId = some D) :
    s.undoPop
      = (true,
         { s with
            undoStack := rest,
            doctors := mset s.doctors act.token.doctorId (D.enqueueRoutine act.token).2,
            pendingCountTotal := s.pendingCountTotal + 1,
            servedCount := s.servedCount - 1 }) := by
  unfold HospitalSystem.undoPop
  simp only [hstack, htype, hrt, hd]
  simp

theorem undoPop_serve_emergency_eq (s : HospitalSystem) (act : Action)
    (rest : List Action)
    (hstack : s.undoStack = act :: rest)
    (htype : act.type = ActionType.SERVE)
    (hem : act.token.type = TokenType.EMERGENCY) :
    s.undoPop
      = (true,
         { s with
            undoStack := rest,
            triageHeap := heapPush { severity := act.severity, token := act.token }
              s.triageHeap,
            pendingCountTotal := s.pendingCountTotal + 1,
            servedCount := s.servedCount - 1 }) := by
  unfold HospitalSystem.undoPop
  simp only [hstack, htype, hem]
  simp

/-! ## Claim C1 -/

/-- C1: for every system state with a non-empty triage collection and every
requested provider id (including unknown ids), `serveNext` succeeds, serves the
minimum triage entry (lowest severity, ties broken by lowest token id), leaves
every provider's state (slot sequences and FIFOs) untouched, and its result
does not depend on the requested provider id; hence routine service via a
provider's FIFO or slots can only happen when the triage collection is
empty. -/
theorem claim1_global_emergency_precedence (s : HospitalSystem) (d : Int)
    (hne : s.triageHeap ≠ []) :
    ∃ tt rest, s.triageHeap = tt :: rest ∧
      (s.serveNext d).1 = some { tt.token with type := TokenType.EMERGENCY } ∧
      (s.serveNext d).2.doctors = s.doctors ∧
      (s.serveNext d).2.triageHeap = rest ∧
      (∀ d2 : Int, s.serveNext d2 = s.serveNext d) ∧
      (heapSorted s.triageHeap →
        ∀ e ∈ s.triageHeap,
          tt.severity < e.severity ∨
            (tt.severity = e.severity ∧ tt.token.tokenId ≤ e.token.tokenId)) := by
  obtain ⟨tt, rest, hheap⟩ : ∃ tt rest, s.triageHeap = tt :: rest := by
    cases hh : s.triageHeap with
    | nil => exact absurd hh hne
    | cons a l => exact ⟨a, l, rfl⟩
  obtain ⟨h1, h2, h3, _, _, _, _, _, h9⟩ := serveNext_heap_head s d tt rest hheap
  refine ⟨tt, rest, hheap, h1, h2, h3, h9, ?_⟩
  intro hs
  rw [hheap] at hs ⊢
  exact heap_head_min tt rest hs

/-- Concrete instantiation of `claim1_global_emergency_precedence`: two triage
entries pending, an unknown provider id is requested, the lower-severity entry
is served and the provider map is untouched. -/
theorem claim1_witness :
    ((((wsBase 5 []).triageInsert 2 4).2.triageInsert 3 2).2.serveNext 42).1
        = some { tokenId := 2, patientId := 3, doctorId := -1, slotId := -1,
                 type := TokenType.EMERGENCY } ∧
    ((((wsBase 5 []).triageInsert 2 4).2.triageInsert 3 2).2.serveNext 42).2.doctors
        = (((wsBase 5 []).triageInsert 2 4).2.triageInsert 3 2).2.doctors ∧
    (((wsBase 5 []).triageInsert 2 4).2.triageInsert 3 2).2.serveNext 99
        = (((wsBase 5 []).triageInsert 2 4).2.triageInsert 3 2).2.serveNext 42 := by
  obtain ⟨tt, rest, hheap, h1, h2, h3, h4, h5⟩ :=
    claim1_global_emergency_precedence
      (((wsBase 5 []).triageInsert 2 4).2.triageInsert 3 2).2 42 (by decide)
  have hconc : (((wsBase 5 []).triageInsert 2 4).2.triageInsert 3 2).2.triageHeap
      = ⟨2, { tokenId := 2, patientId := 3, doctorId := -1, slotId := -1,
              type := TokenType.EMERGENCY }⟩ ::
        [⟨4, { tokenId := 1, patientId := 2, doctorId := -1, slotId := -1,
               type := TokenType.EMERGENCY }⟩] := by decide
  rw [hconc] at hheap
  cases hheap
  exact ⟨h1, h2, h4 99⟩

/-! ## Claim C5 -/

/-- C5: routine queues are FIFO with capacity `C`: on a well-formed queue,
`enqueueRoutine` appends at the rear when the queue is not full and fails
leaving the queue unchanged when it is full; `dequeueRoutine` removes the
front; starting from a fresh provider of capacity `C`, every one of the first
`C` slotless enqueues succeeds, the queue then drains in exactly insertion
order, and one more enqueue fails leaving the queue unchanged; the same holds
through the slotless `bookRoutine` entry point. -/
theorem claim5_fifo_capacity (i : Int) (nm spec : String) :
    (∀ (D : Doctor) (t : Token), D.wfQ → D.sizeQ < D.capacity →
        (D.enqueueRoutine t).1 = true ∧
        (D.enqueueRoutine t).2.toListQ = D.toListQ ++ [t]) ∧
    (∀ (D : Doctor) (t : Token), D.sizeQ = D.capacity →
        D.enqueueRoutine t = (false, D)) ∧
    (∀ (D : Doctor), D.wfQ → D.sizeQ ≠ 0 →
        ∃ D1, D.dequeueRoutine = some (D.toListQ.headI, D1) ∧
          D1.toListQ = D.toListQ.tail) ∧
    (∀ (cap : Nat) (ts : List Token) (t2 : Token), ts.length = cap →
        (∀ l1 t l2, ts = l1 ++ t :: l2 →
            ((l1.foldl (fun d t0 => (d.enqueueRoutine t0).2)
                (mkDoctor i nm spec cap)).enqueueRoutine t).1 = true) ∧
        (ts.foldl (fun d t0 => (d.enqueueRoutine t0).2)
            (mkDoctor i nm spec cap)).drainQueue.1 = ts ∧
        (ts.foldl (fun d t0 => (d.enqueueRoutine t0).2)
              (mkDoctor i nm spec cap)).enqueueRoutine t2
          = (false, ts.foldl (fun d t0 => (d.enqueueRoutine t0).2)
              (mkDoctor i nm spec cap))) ∧
    (∀ (s : HospitalSystem) (pid did : Int) (D : Doctor) (P : Patient),
        mfind s.doctors did = some D → mfind s.patients pid = some P → D.wfQ →
        (D.sizeQ < D.capacity →
          (s.enqueueRoutine pid did (-1)).1 = s.nextTokenId ∧
          ∃ D2, mfind (s.enqueueRoutine pid did (-1)).2.doctors did = some D2 ∧
            D2.toListQ = D.toListQ ++
              [{ tokenId := s.nextTokenId, patientId := pid, doctorId := did,
                 slotId := -1, type := TokenType.ROUTINE }]) ∧
        (D.sizeQ = D.capacity →
          (s.enqueueRoutine pid did (-1)).1 = -1 ∧
          mfind (s.enqueueRoutine pid did (-1)).2.doctors did = some D)) := by
  refine ⟨?_, ?_, ?_, ?_, ?_⟩
  · intro D t hwf hlt
    obtain ⟨h1, _, h3, _⟩ := D.enqueueRoutine_spec t hwf hlt
    exact ⟨h1, h3⟩
  · intro D t hfull
    exact D.enqueueRoutine_full t hfull
  · intro D hwf hne
    obtain ⟨D1, hdq, _, htl, _⟩ := D.dequeueRoutine_spec hwf hne
    refine ⟨D1, ?_, ?_⟩
    · rw [hdq, htl]
      simp
    · rw [htl]
      simp
  · intro cap ts t2 hlen
    have hwf0 := mkDoctor_wfQ i nm spec cap
    have hsz0 : (mkDoctor i nm spec cap).sizeQ = 0 := rfl
    have hcap0 : (mkDoctor i nm spec cap).capacity = cap := rfl
    obtain ⟨hwfF, htlF, hszF, _, hcapF, _, _, _⟩ :=
      Doctor.foldl_enqueue_spec ts (mkDoctor i nm spec cap) hwf0 (by omega)
    refine ⟨?_, ?_, ?_⟩
    · intro l1 t l2 hsplit
      obtain ⟨hwf1, _, hsz1, _, hcap1, _, _, _⟩ :=
        Doctor.foldl_enqueue_spec l1 (mkDoctor i nm spec cap)
          hwf0 (by subst hsplit; simp at hlen; omega)
      have hlt1 : (l1.foldl (fun d t0 => (d.enqueueRoutine t0).2)
          (mkDoctor i nm spec cap)).sizeQ
          < (l1.foldl (fun d t0 => (d.enqueueRoutine t0).2)
              (mkDoctor i nm spec cap)).capacity := by
        rw [hsz1, hcap1, hsz0, hcap0]
        subst hsplit
        simp at hlen
        omega
      exact ((l1.foldl (fun d t0 => (d.enqueueRoutine t0).2)
        (mkDoctor i nm spec cap)).enqueueRoutine_spec t hwf1 hlt1).1
    · rw [(Doctor.drainQueue_spec _ hwfF)]
      rw [htlF, Doctor.toListQ_eq_nil _ hsz0]
      simp
    · exact Doctor.enqueueRoutine_full _ t2 (by rw [hszF, hcapF, hsz0, hcap0]; omega)
  · intro s pid did D P hd hp hwf
    constructor
    · intro hlt
      have hnf : D.sizeQ ≠ D.capacity := by omega
      rw [enqueueRoutine_fifo_eq s pid did D P hd hp hnf]
      obtain ⟨_, _, htl, _⟩ := D.enqueueRoutine_spec
        { tokenId := s.nextTokenId, patientId := pid, doctorId := did,
          slotId := -1, type := TokenType.ROUTINE } hwf hlt
      exact ⟨rfl, _, mfind_mset_self _ _ _, htl⟩
    · intro hfull
      rw [enqueueRoutine_fifo_full s pid did D P hd hp hfull]
      exact ⟨rfl, hd⟩

/-- Concrete instantiation of `claim5_fifo_capacity` at capacity 2: both
enqueues succeed, the queue drains in insertion order, and a third enqueue
fails leaving the queue unchanged. -/
theorem claim5_witness :
    ((mkDoctor 1 "Dr" "Gen" 3).enqueueRoutine { tokenId := 9 }).1 = true ∧
    (([{ tokenId := 10 }, { tokenId := 11 }] : List Token).foldl
        (fun d t0 => (d.enqueueRoutine t0).2) (mkDoctor 1 "Dr" "Gen" 2)).drainQueue.1
      = [{ tokenId := 10 }, { tokenId := 11 }] ∧
    (([{ tokenId := 10 }, { tokenId := 11 }] : List Token).foldl
        (fun d t0 => (d.enqueueRoutine t0).2) (mkDoctor 1 "Dr" "Gen" 2)).enqueueRoutine
        { tokenId := 12 }
      = (false, ([{ tokenId := 10 }, { tokenId := 11 }] : List Token).foldl
          (fun d t0 => (d.enqueueRoutine t0).2) (mkDoctor 1 "Dr" "Gen" 2)) ∧
    ((wsBase 1 []).enqueueRoutine 1 1 (-1)).1 = 1 := by
  obtain ⟨h1, h2, h3, h4, h5⟩ := claim5_fifo_capacity 1 "Dr" "Gen"
  obtain ⟨ha, hb, hc⟩ := h4 2 [{ tokenId := 10 }, { tokenId := 11 }] { tokenId := 12 } rfl
  refine ⟨?_, hb, hc, ?_⟩
  · exact (h1 (mkDoctor 1 "Dr" "Gen" 3) { tokenId := 9 } (by decide) (by decide)).1
  · have h6 := (h5 (wsBase 1 []) 1 1 (docSlots 1 []) { id := 1, name := "A" }
      rfl rfl (by decide)).1 (by decide)
    exact h6.1

/-! ## Claim C4 -/

/-- C4: starting from any state whose triage collection satisfies the heap
model invariant, after any sequence of triage insertions the collection is
still well-ordered, and whenever `serveNext` serves from the non-empty triage
collection it returns the pending emergency entry with the numerically lowest
severity, ties resolved in favour of the lowest token id. -/
theorem claim4_triage_min_order (s : HospitalSystem) (inserts : List (Int × Int))
    (d : Int) (hs : heapSorted s.triageHeap) :
    heapSorted (runTriageInserts s inserts).triageHeap ∧
    ∀ tt rest, (runTriageInserts s inserts).triageHeap = tt :: rest →
      ((runTriageInserts s inserts).serveNext d).1
          = some { tt.token with type := TokenType.EMERGENCY } ∧
      ∀ e ∈ (runTriageInserts s inserts).triageHeap,
        tt.severity < e.severity ∨
          (tt.severity = e.severity ∧ tt.token.tokenId ≤ e.token.tokenId) := by
  have hsorted := runTriageInserts_sorted inserts s hs
  refine ⟨hsorted, ?_⟩
  intro tt rest hheap
  obtain ⟨h1, _, _, _, _, _, _, _, _⟩ :=
    serveNext_heap_head (runTriageInserts s inserts) d tt rest hheap
  refine ⟨h1, ?_⟩
  rw [hheap] at hsorted ⊢
  exact heap_head_min tt rest hsorted

/-- Concrete instantiation of `claim4_triage_min_order`: severities [5, 2, 2]
inserted for patients 1, 2, 3 in that order; the served token is the first
token with severity 2 (token id 2), not the severity-5 token and not the later
severity-2 token. -/
theorem claim4_witness :
    ((runTriageInserts (wsBase 5 []) [(1, 5), (2, 2), (3, 2)]).serveNext 7).1
        = some { tokenId := 2, patientId := 2, doctorId := -1, slotId := -1,
                 type := TokenType.EMERGENCY } := by
  obtain ⟨hsorted, hmin⟩ :=
    claim4_triage_min_order (wsBase 5 []) [(1, 5), (2, 2), (3, 2)] 7 (by decide)
  have hconc : (runTriageInserts (wsBase 5 []) [(1, 5), (2, 2), (3, 2)]).triageHeap
      = ⟨2, { tokenId := 2, patientId := 2, doctorId := -1, slotId := -1,
              type := TokenType.EMERGENCY }⟩ ::
        [⟨2, { tokenId := 3, patientId := 3, doctorId := -1, slotId := -1,
               type := TokenType.EMERGENCY }⟩,
         ⟨5, { tokenId := 1, patientId := 1, doctorId := -1, slotId := -1,
               type := TokenType.EMERGENCY }⟩] := by decide
  exact (hmin _ _ hconc).1

/-! ## Slot-sequence lemmas -/

theorem find?_updateFirstSlot (l : List SlotNode) (p : SlotNode → Bool)
    (f : SlotNode → SlotNode) (sl : SlotNode)
    (h : l.find? p = some sl) (hf : p (f sl) = true) :
    (updateFirstSlot l p f).find? p = some (f sl) := by
  induction l with
  | nil => simp [List.find?] at h
  | cons n rest ih =>
    by_cases hp : p n = true
    · rw [List.find?_cons_of_pos _ hp] at h
      injection h with h
      subst h
      unfold updateFirstSlot
      rw [if_pos hp]
      rw [List.find?_cons_of_pos _ hf]
    · rw [List.find?_cons_of_neg _ (by simp [hp])] at h
      unfold updateFirstSlot
      rw [if_neg (by simp [hp])]
      rw [List.find?_cons_of_neg _ (by simp [hp])]
      exact ih h

theorem removeFirstSlot_found (l : List SlotNode) (sid : Int) (sl : SlotNode)
    (h : l.find? (fun n => n.slotId == sid) = some sl) :
    (removeFirstSlot l sid).1 = true := by
  induction l with
  | nil => simp [List.find?] at h
  | cons n rest ih =>
    by_cases hn : n.slotId = sid
    · unfold removeFirstSlot
      rw [if_pos hn]
    · rw [List.find?_cons_of_neg _ (by simp [hn])] at h
      unfold removeFirstSlot
      rw [if_neg hn]
      exact ih h

theorem countSlotId_updateFirstSlot (l : List SlotNode) (p : SlotNode → Bool)
    (f : SlotNode → SlotNode) (sid : Int)
    (hf : ∀ n, (f n).slotId = n.slotId) :
    countSlotId (updateFirstSlot l p f) sid = countSlotId l sid := by
  induction l with
  | nil => rfl
  | cons n rest ih =>
    unfold updateFirstSlot
    by_cases hp : p n = true
    · rw [if_pos hp]
      unfold countSlotId
      simp only [List.filter_cons, hf n]
      by_cases hn : (n.slotId == sid) = true <;> simp [hn, countSlotId]
    · rw [if_neg (by simp [hp])]
      unfold countSlotId
      simp only [List.filter_cons]
      by_cases hn : (n.slotId == sid) = true <;>
        simp only [hn, Bool.false_eq_true, if_true, if_false, List.length_cons] <;>
        have := ih <;>
        simp [countSlotId] at this ⊢ <;>
        omega

theorem find?_eq_none_of_countSlotId_zero (l : List SlotNode) (sid : Int)
    (h : countSlotId l sid = 0) :
    l.find? (fun n => n.slotId == sid) = none := by
  induction l with
  | nil => rfl
  | cons n rest ih =>
    unfold countSlotId at h
    simp only [List.filter_cons] at h
    by_cases hn : (n.slotId == sid) = true
    · simp [hn] at h
    · have hn2 : ¬((fun m : SlotNode => m.slotId == sid) n = true) := hn
      rw [@List.find?_cons_of_neg SlotNode (fun m => m.slotId == sid) n rest hn2]
      simp only [hn, Bool.false_eq_true, if_false] at h
      exact ih h

theorem find?_removeFirstSlot_none (l : List SlotNode) (sid : Int)
    (h : countSlotId l sid ≤ 1) :
    (removeFirstSlot l sid).2.find? (fun n => n.slotId == sid) = none := by
  induction l with
  | nil => rfl
  | cons n rest ih =>
    unfold removeFirstSlot
    by_cases hn : n.slotId = sid
    · rw [if_pos hn]
      show rest.find? (fun m => m.slotId == sid) = none
      apply find?_eq_none_of_countSlotId_zero
      unfold countSlotId at h ⊢
      simp only [List.filter_cons] at h
      rw [if_pos (by simp [hn])] at h
      simp only [List.length_cons] at h
      omega
    · rw [if_neg hn]
      show ((n :: (removeFirstSlot rest sid).2).find? (fun m => m.slotId == sid)) = none
      have hn2 : ¬((fun m : SlotNode => m.slotId == sid) n = true) := by simp [hn]
      rw [@List.find?_cons_of_neg SlotNode (fun m => m.slotId == sid) n
        (removeFirstSlot rest sid).2 hn2]
      apply ih
      unfold countSlotId at h ⊢
      simp only [List.filter_cons] at h
      rw [if_neg (by simp [hn])] at h
      exact h

/-! ## scheduleCancelSlot and undoPop CANCEL equations -/

theorem scheduleCancelSlot_taken_eq (s : HospitalSystem) (did sid : Int)
    (D : Doctor) (sl : SlotNode)
    (hd : mfind s.doctors did = some D)
    (hsl : D.findSlot sid = some sl) (htaken : sl.taken = true) :
    s.scheduleCancelSlot did sid
      = ((removeFirstSlot (updateFirstSlot D.slots (fun n => n.slotId == sid)
            (fun n => { n with taken := false, tokenId := -1 })) sid).1,
         { s with
            undoStack := { type := ActionType.CANCEL,
                           token := { tokenId := sl.tokenId, patientId := -1,
                                      doctorId := did, slotId := sid,
                                      type := TokenType.ROUTINE },
                           slotId := sid, doctorId := did,
                           slotPreviouslyTaken := true } :: s.undoStack,
            pendingCountTotal := s.pendingCountTotal - 1,
            doctors := (mset s.doctors did
              ({ D with slots := (removeFirstSlot (updateFirstSlot D.slots
                  (fun n => n.slotId == sid)
                  (fun n => { n with taken := false, tokenId := -1 })) sid).2 })) }) := by
  unfold HospitalSystem.scheduleCancelSlot
  simp only [hd, hsl, htaken, if_true]
  rfl

theorem scheduleCancelSlot_free_eq (s : HospitalSystem) (did sid : Int)
    (D : Doctor) (sl : SlotNode)
    (hd : mfind s.doctors did = some D)
    (hsl : D.findSlot sid = some sl) (hfree : sl.taken = false) :
    s.scheduleCancelSlot did sid
      = ((removeFirstSlot D.slots sid).1,
         { s with doctors := (mset s.doctors did
            ({ D with slots := (removeFirstSlot D.slots sid).2 })) }) := by
  unfold HospitalSystem.scheduleCancelSlot
  simp only [hd, hsl, hfree, Bool.false_eq_true, if_false]
  rfl

theorem undoPop_cancel_fail_eq (s : HospitalSystem) (act : Action)
    (rest : List Action) (D : Doctor)
    (hstack : s.undoStack = act :: rest)
    (htype : act.type = ActionType.CANCEL)
    (hd : mfind s.doctors act.doctorId = some D)
    (hmiss : D.findSlot act.slotId = none) :
    s.undoPop = (false, { s with undoStack := rest }) := by
  unfold HospitalSystem.undoPop
  simp only [hstack, htype, hd, hmiss]

theorem undoPop_cancel_ok_eq (s : HospitalSystem) (act : Action)
    (rest : List Action) (D : Doctor) (sl : SlotNode)
    (hstack : s.undoStack = act :: rest)
    (htype : act.type = ActionType.CANCEL)
    (hd : mfind s.doctors act.doctorId = some D)
    (hsl : D.findSlot act.slotId = some sl) :
    s.undoPop
      = (true,
         { s with
            undoStack := rest,
            doctors := (mset s.doctors act.doctorId
              ({ D with slots := (updateFirstSlot D.slots
                  (fun n => n.slotId == act.slotId)
                  (fun n => { n with taken := true, tokenId := act.token.tokenId })) })),
            pendingCountTotal := s.pendingCountTotal + 1 }) := by
  unfold HospitalSystem.undoPop
  simp only [hstack, htype, hd, hsl]

/-! ## triageInsert and undoPop structural lemmas -/

theorem triageInsert_ok_eq (s : HospitalSystem) (pid sev : Int) (P : Patient)
    (hp : mfind s.patients pid = some P) :
    s.triageInsert pid sev
      = (true,
         { s with
            nextTokenId := s.nextTokenId + 1,
            triageHeap := heapPush
              { severity := sev,
                token := { tokenId := s.nextTokenId, patientId := pid,
                           doctorId := -1, slotId := -1,
                           type := TokenType.EMERGENCY } } s.triageHeap,
            undoStack := { type := ActionType.TRIAGE_INSERT,
                           token := { tokenId := s.nextTokenId, patientId := pid,
                                      doctorId := -1, slotId := -1,
                                      type := TokenType.EMERGENCY },
                           severity := sev } :: s.undoStack,
            pendingCountTotal := s.pendingCountTotal + 1,
            patients := bumpFreq s.patients pid }) := by
  unfold HospitalSystem.triageInsert
  simp only [hp, Option.isNone_some, Bool.false_eq_true, if_false]

theorem triageInsert_fail_eq (s : HospitalSystem) (pid sev : Int)
    (hp : mfind s.patients pid = none) :
    s.triageInsert pid sev = (false, s) := by
  unfold HospitalSystem.triageInsert
  simp only [hp, Option.isNone_none, if_true]

/-- `undoPop` with a non-empty ledger always removes exactly the top record,
whether or not the reversal succeeds. -/
theorem undoPop_pops_top (s : HospitalSystem) (a : Action) (rest : List Action)
    (hstack : s.undoStack = a :: rest) :
    (s.undoPop).2.undoStack = rest := by
  unfold HospitalSystem.undoPop
  rw [hstack]
  obtain ⟨ty, tok, sid2, did2, snap, prev, sev, pidu, existed⟩ := a
  cases ty <;>
    simp only [] <;>
    (repeat' split) <;>
    rfl

theorem undoPop_empty (s : HospitalSystem) (hstack : s.undoStack = []) :
    s.undoPop = (false, s) := by
  unfold HospitalSystem.undoPop
  rw [hstack]

theorem serveNext_nodoctor_eq (s : HospitalSystem) (d : Int)
    (hheap : s.triageHeap = []) (hd : mfind s.doctors d = none) :
    s.serveNext d = (none, s) := by
  unfold HospitalSystem.serveNext
  simp only [hheap, hd]

theorem serveNext_nothing_eq (s : HospitalSystem) (d : Int) (D : Doctor)
    (hheap : s.triageHeap = []) (hd : mfind s.doctors d = some D)
    (hsz : D.sizeQ = 0) (hfind : D.slots.find? (fun n => n.taken) = none) :
    s.serveNext d = (none, s) := by
  unfold HospitalSystem.serveNext
  simp only [hheap, hd, Doctor.dequeueRoutine_none D hsz, hfind]

theorem Doctor.dequeueRoutine_ne_none (D : Doctor) (h : D.sizeQ ≠ 0) :
    D.dequeueRoutine ≠ none := by
  unfold Doctor.dequeueRoutine
  have hne : D.isEmpty = false := by
    simp only [Doctor.isEmpty, beq_eq_false_iff_ne, ne_eq]
    omega
  rw [hne]
  simp

/-- Every successful `serveNext` pushes exactly one `SERVE` record. -/
theorem serveNext_pushes_serve (s : HospitalSystem) (d : Int) (t : Token)
    (s2 : HospitalSystem) (h : s.serveNext d = (some t, s2)) :
    ∃ act : Action, act.type = ActionType.SERVE ∧ s2.undoStack = act :: s.undoStack := by
  cases hheap : s.triageHeap with
  | cons tt rest =>
    obtain ⟨_, _, _, h4, _⟩ := serveNext_heap_head s d tt rest hheap
    rw [h] at h4
    exact ⟨_, rfl, h4⟩
  | nil =>
    cases hd : mfind s.doctors d with
    | none =>
      rw [serveNext_nodoctor_eq s d hheap hd] at h
      simp at h
    | some D =>
      cases hdq : D.dequeueRoutine with
      | some pr =>
        obtain ⟨tk, D1⟩ := pr
        rw [serveNext_fifo_eq s d D tk D1 hheap hd hdq] at h
        injection h with h1 h2
        rw [← h2]
        exact ⟨_, rfl, rfl⟩
      | none =>
        cases hsz : D.sizeQ with
        | succ k =>
          exact absurd hdq (D.dequeueRoutine_ne_none (by omega))
        | zero =>
          cases hfind : D.slots.find? (fun n => n.taken) with
          | some sl =>
            rw [serveNext_slot_fallback_eq s d D sl hheap hd hsz hfind] at h
            injection h with h1 h2
            rw [← h2]
            exact ⟨_, rfl, rfl⟩
          | none =>
            rw [serveNext_nothing_eq s d D hheap hd hsz hfind] at h
            simp at h

/-! ## Load-accounting lemmas for the pending-counter invariant -/

theorem countTaken_append_free (l : List SlotNode) (n : SlotNode)
    (h : n.taken = false) : countTaken (l ++ [n]) = countTaken l := by
  unfold countTaken
  rw [List.filter_append]
  simp [List.filter, h]

theorem countTaken_updateFirstSlot (l : List SlotNode) (p : SlotNode → Bool)
    (f : SlotNode → SlotNode) (sl : SlotNode) (h : l.find? p = some sl) :
    countTaken (updateFirstSlot l p f)
      = countTaken l - (if sl.taken = true then 1 else 0)
        + (if (f sl).taken = true then 1 else 0) := by
  induction l with
  | nil => simp [List.find?] at h
  | cons n rest ih =>
    by_cases hp : p n = true
    · rw [List.find?_cons_of_pos _ hp] at h
      injection h with h
      unfold updateFirstSlot
      rw [if_pos hp, ← h]
      unfold countTaken
      simp only [List.filter_cons]
      by_cases ht : n.taken = true <;> by_cases hft : (f n).taken = true <;>
        simp only [ht, hft, Bool.false_eq_true, if_true, if_false,
          List.length_cons] <;>
        push_cast <;>
        ring
    · rw [List.find?_cons_of_neg _ hp] at h
      unfold updateFirstSlot
      rw [if_neg hp]
      have hrec := ih h
      unfold countTaken at hrec ⊢
      simp only [List.filter_cons]
      by_cases ht : n.taken = true <;>
        simp only [ht, Bool.false_eq_true, if_true, if_false, List.length_cons] <;>
        push_cast at hrec ⊢ <;>
        omega

theorem countTaken_removeFirstSlot (l : List SlotNode) (sid : Int) (sl : SlotNode)
    (h : l.find? (fun n => n.slotId == sid) = some sl) :
    countTaken (removeFirstSlot l sid).2
      = countTaken l - (if sl.taken = true then 1 else 0) := by
  induction l with
  | nil => simp [List.find?] at h
  | cons n rest ih =>
    by_cases hn : n.slotId = sid
    · have hp : ((fun m : SlotNode => m.slotId == sid) n) = true := by simp [hn]
      rw [@List.find?_cons_of_pos SlotNode (fun m => m.slotId == sid) n rest hp] at h
      injection h with h
      unfold removeFirstSlot
      rw [if_pos hn]
      show countTaken rest = countTaken (n :: rest) - _
      rw [← h]
      unfold countTaken
      simp only [List.filter_cons]
      by_cases ht : n.taken = true <;>
        simp only [ht, Bool.false_eq_true, if_true, if_false, List.length_cons] <;>
        push_cast <;>
        ring
    · have hp : ¬((fun m : SlotNode => m.slotId == sid) n) = true := by simp [hn]
      rw [@List.find?_cons_of_neg SlotNode (fun m => m.slotId == sid) n rest hp] at h
      unfold removeFirstSlot
      rw [if_neg hn]
      show countTaken (n :: (removeFirstSlot rest sid).2) = _
      have hrec := ih h
      unfold countTaken at hrec ⊢
      simp only [List.filter_cons]
      by_cases ht : n.taken = true <;>
        simp only [ht, Bool.false_eq_true, if_true, if_false, List.length_cons] <;>
        push_cast at hrec ⊢ <;>
        omega

theorem sumLoad_mset (m : List (Int × Doctor)) (k : Int) (D D' : Doctor)
    (h : mfind m k = some D) :
    ((mset m k D').map (fun pr => doctorLoad pr.2)).sum
      = (m.map (fun pr => doctorLoad pr.2)).sum - doctorLoad D + doctorLoad D' := by
  induction m with
  | nil => simp [mfind] at h
  | cons hd2 tl ih =>
    obtain ⟨k1, v1⟩ := hd2
    by_cases h1 : k1 = k
    · simp only [mfind, if_pos h1] at h
      injection h with h
      rw [← h]
      simp only [mset, if_pos h1]
      simp
      ring
    · simp only [mfind, if_neg h1] at h
      simp only [mset, if_neg h1]
      simp only [List.map_cons, List.sum_cons, ih h]
      ring

theorem sumLoad_append (m : List (Int × Doctor)) (k : Int) (D : Doctor) :
    ((m ++ [(k, D)]).map (fun pr => doctorLoad pr.2)).sum
      = (m.map (fun pr => doctorLoad pr.2)).sum + doctorLoad D := by
  simp

theorem Doctor.enqueueRoutine_not_full_fields (D : Doctor) (t : Token)
    (h : D.sizeQ ≠ D.capacity) :
    (D.enqueueRoutine t).2.sizeQ = D.sizeQ + 1 ∧
    (D.enqueueRoutine t).2.slots = D.slots := by
  have hfull : D.isFull = false := by
    simp only [Doctor.isFull, beq_eq_false_iff_ne, ne_eq]
    omega
  unfold Doctor.enqueueRoutine
  rw [hfull]
  simp

theorem Doctor.dequeueRoutine_some_fields (D : Doctor) (tk : Token) (D1 : Doctor)
    (h : D.dequeueRoutine = some (tk, D1)) :
    D1.sizeQ = D.sizeQ - 1 ∧ D1.slots = D.slots ∧ D.sizeQ ≠ 0 := by
  unfold Doctor.dequeueRoutine at h
  by_cases he : D.isEmpty = true
  · rw [if_pos he] at h
    simp at h
  · rw [if_neg he] at h
    simp only [] at h
    injection h with h
    injection h with h1 h2
    have hsz : D.sizeQ ≠ 0 := by
      simp only [Doctor.isEmpty, beq_iff_eq] at he
      omega
    refine ⟨?_, ?_, hsz⟩ <;> rw [← h2] <;> split <;> rfl

theorem heapPush_length (x : TriagedToken) (l : List TriagedToken) :
    (heapPush x l).length = l.length + 1 := by
  induction l with
  | nil => rfl
  | cons y ys ih =>
    unfold heapPush
    by_cases hgt : y.gt x = true
    · rw [if_pos hgt]
      rfl
    · rw [if_neg hgt]
      simp [ih]

/-- Every forward (non-undo) operation preserves the pending-counter
invariant. -/
theorem applyOp_load (s : HospitalSystem) (op : SysOp) (h : loadInvariant s) :
    loadInvariant (applyOp s op) := by
  cases op with
  | addDoc i nm sp c =>
    show loadInvariant (s.addDoctor i nm sp c).2
    unfold HospitalSystem.addDoctor
    cases hd : mfind s.doctors i with
    | some D => exact h
    | none =>
      unfold loadInvariant sysLoad at h ⊢
      simp only []
      rw [sumLoad_append]
      have hzero : doctorLoad (mkDoctor i nm sp c) = 0 := by
        simp [doctorLoad, mkDoctor, countTaken]
      rw [hzero]
      simpa using h
  | addSlot d sid st en =>
    show loadInvariant (s.scheduleAddSlot d sid st en).2
    unfold HospitalSystem.scheduleAddSlot
    cases hd : mfind s.doctors d with
    | none => exact h
    | some D =>
      unfold loadInvariant sysLoad at h ⊢
      simp only []
      rw [sumLoad_mset s.doctors d D _ hd]
      have : doctorLoad (D.insertSlot sid st en) = doctorLoad D := by
        unfold doctorLoad Doctor.insertSlot
        simp only []
        rw [countTaken_append_free _ _ rfl]
      rw [this]
      omega
  | upsert p =>
    show loadInvariant (s.patientUpsert p)
    unfold loadInvariant sysLoad HospitalSystem.patientUpsert
    unfold loadInvariant sysLoad at h
    simpa using h
  | triage pid sev =>
    show loadInvariant (s.triageInsert pid sev).2
    cases hp : mfind s.patients pid with
    | none =>
      rw [triageInsert_fail_eq s pid sev hp]
      exact h
    | some P =>
      rw [triageInsert_ok_eq s pid sev P hp]
      unfold loadInvariant sysLoad at h ⊢
      simp only [heapPush_length]
      push_cast at h ⊢
      omega
  | cancelSlot d sid =>
    show loadInvariant (s.scheduleCancelSlot d sid).2
    cases hd : mfind s.doctors d with
    | none =>
      unfold HospitalSystem.scheduleCancelSlot
      rw [hd]
      exact h
    | some D =>
      cases hsl : D.findSlot sid with
      | none =>
        unfold HospitalSystem.scheduleCancelSlot
        rw [hd]
        simp only [hsl]
        exact h
      | some sl =>
        have hsl0 : D.slots.find? (fun n => n.slotId == sid) = some sl := hsl
        cases htk : sl.taken with
        | true =>
          rw [scheduleCancelSlot_taken_eq s d sid D sl hd hsl htk]
          unfold loadInvariant sysLoad at h ⊢
          simp only []
          rw [sumLoad_mset s.doctors d D _ hd]
          have hkey : ((fun n : SlotNode => n.slotId == sid) sl) = true :=
            @List.find?_some SlotNode (fun n => n.slotId == sid) sl D.slots hsl0
          have hfree1 : (updateFirstSlot D.slots (fun n => n.slotId == sid)
              (fun n => { n with taken := false, tokenId := -1 })).find?
              (fun n => n.slotId == sid)
              = some ({ sl with taken := false, tokenId := -1 }) :=
            find?_updateFirstSlot _ _ _ _ hsl0 (by simpa using hkey)
          have hload : doctorLoad ({ D with slots := (removeFirstSlot
              (updateFirstSlot D.slots (fun n => n.slotId == sid)
                (fun n => { n with taken := false, tokenId := -1 })) sid).2 })
              = doctorLoad D - 1 := by
            unfold doctorLoad
            simp only []
            rw [countTaken_removeFirstSlot _ sid _ hfree1]
            rw [countTaken_updateFirstSlot _ _ _ _ hsl0]
            simp [htk]
            ring
          rw [hload]
          omega
        | false =>
          rw [scheduleCancelSlot_free_eq s d sid D sl hd hsl htk]
          unfold loadInvariant sysLoad at h ⊢
          simp only []
          rw [sumLoad_mset s.doctors d D _ hd]
          have hload : doctorLoad ({ D with
              slots := (removeFirstSlot D.slots sid).2 }) = doctorLoad D := by
            unfold doctorLoad
            simp only []
            rw [countTaken_removeFirstSlot _ sid _ hsl0]
            simp [htk]
          rw [hload]
          omega
  | book pid did sid =>
    show loadInvariant (s.enqueueRoutine pid did sid).2
    cases hd : mfind s.doctors did with
    | none =>
      unfold HospitalSystem.enqueueRoutine
      rw [hd]
      exact h
    | some D =>
      cases hp : mfind s.patients pid with
      | none =>
        unfold HospitalSystem.enqueueRoutine
        rw [hd]
        simp only [hp, Option.isNone_none, if_true]
        exact h
      | some P =>
        by_cases hsid : sid = -1
        · subst hsid
          by_cases hfull : D.sizeQ = D.capacity
          · rw [enqueueRoutine_fifo_full s pid did D P hd hp hfull]
            exact h
          · rw [enqueueRoutine_fifo_eq s pid did D P hd hp hfull]
            unfold loadInvariant sysLoad at h ⊢
            simp only []
            rw [sumLoad_mset s.doctors did D _ hd]
            obtain ⟨hq1, hq2⟩ := D.enqueueRoutine_not_full_fields
              { tokenId := s.nextTokenId, patientId := pid, doctorId := did,
                slotId := -1, type := TokenType.ROUTINE } hfull
            have hload : doctorLoad (D.enqueueRoutine
                { tokenId := s.nextTokenId, patientId := pid, doctorId := did,
                  slotId := -1, type := TokenType.ROUTINE }).2
                = doctorLoad D + 1 := by
              unfold doctorLoad
              rw [hq1, hq2]
              push_cast
              ring
            rw [hload]
            omega
        · cases hsl : D.findSlot sid with
          | none =>
            unfold HospitalSystem.enqueueRoutine
            rw [hd]
            simp only [hp, Option.isNone_some, Bool.false_eq_true, if_false,
              if_pos hsid, hsl]
            exact h
          | some sl =>
            have hsl0 : D.slots.find? (fun n => n.slotId == sid) = some sl := hsl
            cases htk : sl.taken with
            | true =>
              unfold HospitalSystem.enqueueRoutine
              rw [hd]
              simp only [hp, Option.isNone_some, Bool.false_eq_true, if_false,
                if_pos hsid, hsl, htk, if_true]
              exact h
            | false =>
              rw [enqueueRoutine_slot_eq s pid did sid D P sl hd hp hsid hsl htk]
              unfold loadInvariant sysLoad at h ⊢
              simp only []
              rw [sumLoad_mset s.doctors did D _ hd]
              have hload : doctorLoad ({ D with slots := (updateFirstSlot D.slots
                  (fun n => n.slotId == sid)
                  (fun n => { n with taken := true, tokenId := s.nextTokenId })) })
                  = doctorLoad D + 1 := by
                unfold doctorLoad
                simp only []
                rw [countTaken_updateFirstSlot _ _ _ _ hsl0]
                simp [htk]
                ring
              rw [hload]
              omega
  | serve d =>
    show loadInvariant (s.serveNext d).2
    cases hheap : s.triageHeap with
    | cons tt rest =>
      obtain ⟨_, h2, h3, _, h5, _, _, _, _⟩ := serveNext_heap_head s d tt rest hheap
      unfold loadInvariant sysLoad at h ⊢
      rw [h2, h3, h5]
      rw [hheap] at h
      push_cast [List.length_cons] at h ⊢
      omega
    | nil =>
      cases hd : mfind s.doctors d with
      | none =>
        rw [serveNext_nodoctor_eq s d hheap hd]
        exact h
      | some D =>
        cases hdq : D.dequeueRoutine with
        | some pr =>
          obtain ⟨tk, D1⟩ := pr
          rw [serveNext_fifo_eq s d D tk D1 hheap hd hdq]
          obtain ⟨hq1, hq2, hq3⟩ := D.dequeueRoutine_some_fields tk D1 hdq
          unfold loadInvariant sysLoad at h ⊢
          simp only []
          rw [sumLoad_mset s.doctors d D _ hd]
          have hload : doctorLoad D1 = doctorLoad D - 1 := by
            unfold doctorLoad
            rw [hq1, hq2]
            have : ((D.sizeQ - 1 : Nat) : Int) = (D.sizeQ : Int) - 1 := by
              omega
            rw [this]
            ring
          rw [hload]
          omega
        | none =>
          cases hfind : D.slots.find? (fun n => n.taken) with
          | none =>
            cases hsz : D.sizeQ with
            | succ k => exact absurd hdq (D.dequeueRoutine_ne_none (by omega))
            | zero =>
              rw [serveNext_nothing_eq s d D hheap hd hsz hfind]
              exact h
          | some sl =>
            cases hsz : D.sizeQ with
            | succ k => exact absurd hdq (D.dequeueRoutine_ne_none (by omega))
            | zero =>
              rw [serveNext_slot_fallback_eq s d D sl hheap hd hsz hfind]
              unfold loadInvariant sysLoad at h ⊢
              simp only []
              rw [sumLoad_mset s.doctors d D _ hd]
              have htk : sl.taken = true :=
                @List.find?_some SlotNode (fun n => n.taken) sl D.slots hfind
              have hload : doctorLoad ({ D with slots := (updateFirstSlot D.slots
                  (fun n => n.taken)
                  (fun n => { n with taken := false, tokenId := -1 })) })
                  = doctorLoad D - 1 := by
                unfold doctorLoad
                simp only []
                rw [countTaken_updateFirstSlot _ _ _ _ hfind]
                simp [htk]
                ring
              rw [hload]
              omega

/-! ## Claim C2 -/

/-- C2 counterexample: provider 1 has a single slot 101; patient 1 books it
(pending 1), `scheduleCancelSlot` removes it (pending 0), and the following
`undo()` returns `false` and restores nothing: the pending total stays 0 (the
claim says it rises back to 1) and slot 101 does not exist (the claim says it
is occupied by the original token again). -/
theorem claim2_counterexample :
    ((wsBase 5 [101]).enqueueRoutine 1 1 101).2.pendingCountTotal = 1 ∧
    (((wsBase 5 [101]).enqueueRoutine 1 1 101).2.scheduleCancelSlot 1 101).1 = true ∧
    (((wsBase 5 [101]).enqueueRoutine 1 1 101).2.scheduleCancelSlot 1
        101).2.pendingCountTotal = 0 ∧
    ((((wsBase 5 [101]).enqueueRoutine 1 1 101).2.scheduleCancelSlot 1
        101).2.undoPop).1 = false ∧
    ((((wsBase 5 [101]).enqueueRoutine 1 1 101).2.scheduleCancelSlot 1
        101).2.undoPop).2.pendingCountTotal = 0 ∧
    (((((wsBase 5 [101]).enqueueRoutine 1 1 101).2.scheduleCancelSlot 1
        101).2.undoPop).2.doctors.map (fun pr => pr.2.slots)) = [[]] := by
  exact ⟨by decide, by decide, by decide, by decide, by decide, by decide⟩

/-- C2 (amended): book a routine token into the sole slot `S` of provider `D`
(pending total +1), then `cancelSlot(D, S)` succeeds (pending total back to its
original value, slot removed); the following single `undo()` *fails*: it pops
the Cancel record but, the slot having been unlinked by `cancelSlot`, restores
nothing — the pending total stays decreased and slot `S` still does not
exist. -/
theorem claim2_book_cancel_undo (s : HospitalSystem) (pid did sid : Int)
    (D : Doctor) (P : Patient) (sl : SlotNode)
    (hd : mfind s.doctors did = some D) (hp : mfind s.patients pid = some P)
    (hsid : sid ≠ -1) (hsl : D.findSlot sid = some sl) (hfree : sl.taken = false)
    (huniq : countSlotId D.slots sid = 1) :
    (s.enqueueRoutine pid did sid).1 = s.nextTokenId ∧
    (s.enqueueRoutine pid did sid).2.pendingCountTotal = s.pendingCountTotal + 1 ∧
    ((s.enqueueRoutine pid did sid).2.scheduleCancelSlot did sid).1 = true ∧
    ((s.enqueueRoutine pid did sid).2.scheduleCancelSlot did
        sid).2.pendingCountTotal = s.pendingCountTotal ∧
    (((s.enqueueRoutine pid did sid).2.scheduleCancelSlot did
        sid).2.undoPop).1 = false ∧
    (((s.enqueueRoutine pid did sid).2.scheduleCancelSlot did
        sid).2.undoPop).2.pendingCountTotal = s.pendingCountTotal ∧
    ∃ D3, mfind (((s.enqueueRoutine pid did sid).2.scheduleCancelSlot did
        sid).2.undoPop).2.doctors did = some D3 ∧ D3.findSlot sid = none := by
  have hsl0 : D.slots.find? (fun n => n.slotId == sid) = some sl := hsl
  have hpmem : ((fun n : SlotNode => n.slotId == sid) sl) = true :=
    @List.find?_some SlotNode (fun n => n.slotId == sid) sl D.slots hsl0
  rw [enqueueRoutine_slot_eq s pid did sid D P sl hd hp hsid hsl hfree]
  set D1 : Doctor := { D with slots := (updateFirstSlot D.slots (fun n => n.slotId == sid)
      (fun n => { n with taken := true, tokenId := s.nextTokenId })) } with hD1def
  have hd1 : mfind (mset s.doctors did D1) did = some D1 := mfind_mset_self _ _ _
  have hsl1 : D1.findSlot sid
      = some ({ sl with taken := true, tokenId := s.nextTokenId }) := by
    show (updateFirstSlot D.slots (fun n => n.slotId == sid)
        (fun n => { n with taken := true, tokenId := s.nextTokenId })).find?
        (fun n => n.slotId == sid) = _
    exact find?_updateFirstSlot _ _ _ _ hsl (by simpa using hpmem)
  rw [scheduleCancelSlot_taken_eq _ did sid D1
    ({ sl with taken := true, tokenId := s.nextTokenId }) hd1 hsl1 rfl]
  set D2 : Doctor := { D1 with slots := (removeFirstSlot (updateFirstSlot D1.slots
      (fun n => n.slotId == sid)
      (fun n => { n with taken := false, tokenId := -1 })) sid).2 } with hD2def
  have hcu1 : countSlotId (updateFirstSlot D.slots (fun n => n.slotId == sid)
      (fun n => { n with taken := true, tokenId := s.nextTokenId })) sid
      = countSlotId D.slots sid :=
    countSlotId_updateFirstSlot D.slots _ _ sid (fun n => rfl)
  have hcount1 : countSlotId D1.slots sid = 1 := by
    show countSlotId (updateFirstSlot D.slots (fun n => n.slotId == sid)
      (fun n => { n with taken := true, tokenId := s.nextTokenId })) sid = 1
    rw [hcu1]
    exact huniq
  have hcu2 : countSlotId (updateFirstSlot D1.slots (fun n => n.slotId == sid)
      (fun n => { n with taken := false, tokenId := -1 })) sid
      = countSlotId D1.slots sid :=
    countSlotId_updateFirstSlot D1.slots _ _ sid (fun n => rfl)
  have hmiss : D2.findSlot sid = none := by
    show (removeFirstSlot (updateFirstSlot D1.slots (fun n => n.slotId == sid)
      (fun n => { n with taken := false, tokenId := -1 })) sid).2.find?
      (fun n => n.slotId == sid) = none
    apply find?_removeFirstSlot_none
    rw [hcu2, hcount1]
  have hd2 : mfind (mset (mset s.doctors did D1) did D2) did = some D2 :=
    mfind_mset_self _ _ _
  have hsl1x : D1.slots.find? (fun n => n.slotId == sid)
      = some ({ sl with taken := true, tokenId := s.nextTokenId }) := hsl1
  have hfx : ((fun n : SlotNode => n.slotId == sid)
      ({ ({ sl with taken := true, tokenId := s.nextTokenId } : SlotNode) with
         taken := false, tokenId := -1 })) = true := by
    simpa using hpmem
  have hsl2 : (updateFirstSlot D1.slots (fun n => n.slotId == sid)
      (fun n => { n with taken := false, tokenId := -1 })).find?
      (fun n => n.slotId == sid)
      = some ({ sl with taken := false, tokenId := -1 }) := by
    have h := find?_updateFirstSlot D1.slots (fun n => n.slotId == sid)
      (fun n => { n with taken := false, tokenId := -1 })
      ({ sl with taken := true, tokenId := s.nextTokenId }) hsl1x hfx
    exact h
  have hfound : (removeFirstSlot (updateFirstSlot D1.slots (fun n => n.slotId == sid)
      (fun n => { n with taken := false, tokenId := -1 })) sid).1 = true :=
    removeFirstSlot_found _ sid ({ sl with taken := false, tokenId := -1 }) hsl2
  refine ⟨rfl, rfl, hfound, ?_, ?_, ?_, ?_⟩
  · show s.pendingCountTotal + 1 - 1 = s.pendingCountTotal
    omega
  · rw [undoPop_cancel_fail_eq _ _ _ D2 rfl rfl hd2 hmiss]
  · rw [undoPop_cancel_fail_eq _ _ _ D2 rfl rfl hd2 hmiss]
    show s.pendingCountTotal + 1 - 1 = s.pendingCountTotal
    omega
  · rw [undoPop_cancel_fail_eq _ _ _ D2 rfl rfl hd2 hmiss]
    exact ⟨D2, hd2, hmiss⟩

/-- Concrete instantiation of `claim2_book_cancel_undo` on the base system
with the single slot 101. -/
theorem claim2_witness :
    (((wsBase 5 [101]).enqueueRoutine 1 1 101).2.scheduleCancelSlot 1
        101).2.pendingCountTotal = 0 ∧
    ((((wsBase 5 [101]).enqueueRoutine 1 1 101).2.scheduleCancelSlot 1
        101).2.undoPop).1 = false := by
  have h := claim2_book_cancel_undo (wsBase 5 [101]) 1 1 101 (docSlots 5 [101])
    { id := 1, name := "A" } { slotId := 101, startTime := "s", endTime := "e" }
    rfl rfl (by decide) (by decide) (by decide) (by decide)
  exact ⟨h.2.2.2.1, h.2.2.2.2.1⟩

/-! ## Claim C8 -/

/-- C8 counterexample, two violations on concrete runs.  First: after booking
slot 101 and cancelling it, `undo()` pops the Cancel record (ledger shrinks
from 2 to 1) while reversing nothing (it returns `false` and the pending total
keeps its post-cancel value 0) — so a record is removed from the ledger even
though the operation it describes was not reversed.  Second:
`scheduleCancelSlot` on a *free* slot mutates the schedule (the slot node is
removed) yet pushes no ledger record at all, so the ledger is not the
chronology of all mutating operations. -/
theorem claim8_counterexample :
    ((((wsBase 5 [101]).enqueueRoutine 1 1 101).2.scheduleCancelSlot 1
        101).2.undoStack.length) = 2 ∧
    ((((wsBase 5 [101]).enqueueRoutine 1 1 101).2.scheduleCancelSlot 1
        101).2.undoPop).1 = false ∧
    ((((wsBase 5 [101]).enqueueRoutine 1 1 101).2.scheduleCancelSlot 1
        101).2.undoPop).2.undoStack.length = 1 ∧
    ((((wsBase 5 [101]).enqueueRoutine 1 1 101).2.scheduleCancelSlot 1
        101).2.undoPop).2.pendingCountTotal = 0 ∧
    ((wsBase 5 [101]).scheduleCancelSlot 1 101).1 = true ∧
    ((wsBase 5 [101]).scheduleCancelSlot 1 101).2.undoStack = [] ∧
    (((wsBase 5 [101]).scheduleCancelSlot 1 101).2.doctors.map
        (fun pr => pr.2.slots)) = [[]] := by
  exact ⟨by decide, by decide, by decide, by decide, by decide, by decide, by decide⟩

/-- C8 (amended): each successful `patientUpsert`, `bookRoutine` (either
branch), `triageInsert` and `serveNext` pushes exactly one ledger record of
the corresponding kind on top of the ledger; `cancelSlot` pushes exactly one
`CANCEL` record when the cancelled slot was occupied but *no* record when it
was free (although it still mutates the schedule); `undo()` on a non-empty
ledger always removes exactly the top record — even when the reversal it
attempts fails — and fails leaving the state unchanged on an empty ledger.
Hence the ledger, read top to bottom, is the reverse chronological sequence of
the record-pushing operations whose records have not yet been popped (not
necessarily reversed). -/
theorem claim8_ledger_discipline :
    (∀ (s : HospitalSystem) (p : Patient),
       ∃ act : Action, act.type = ActionType.REGISTER_PATIENT ∧
         (s.patientUpsert p).undoStack = act :: s.undoStack) ∧
    (∀ (s : HospitalSystem) (pid did sid : Int) (D : Doctor) (P : Patient)
        (sl : SlotNode),
       mfind s.doctors did = some D → mfind s.patients pid = some P →
       sid ≠ -1 → D.findSlot sid = some sl → sl.taken = false →
       ∃ act : Action, act.type = ActionType.BOOK ∧
         (s.enqueueRoutine pid did sid).2.undoStack = act :: s.undoStack) ∧
    (∀ (s : HospitalSystem) (pid did : Int) (D : Doctor) (P : Patient),
       mfind s.doctors did = some D → mfind s.patients pid = some P →
       D.sizeQ ≠ D.capacity →
       ∃ act : Action, act.type = ActionType.BOOK ∧
         (s.enqueueRoutine pid did (-1)).2.undoStack = act :: s.undoStack) ∧
    (∀ (s : HospitalSystem) (pid sev : Int) (P : Patient),
       mfind s.patients pid = some P →
       ∃ act : Action, act.type = ActionType.TRIAGE_INSERT ∧
         (s.triageInsert pid sev).2.undoStack = act :: s.undoStack) ∧
    (∀ (s : HospitalSystem) (d : Int) (t : Token) (s2 : HospitalSystem),
       s.serveNext d = (some t, s2) →
       ∃ act : Action, act.type = ActionType.SERVE ∧
         s2.undoStack = act :: s.undoStack) ∧
    (∀ (s : HospitalSystem) (did sid : Int) (D : Doctor) (sl : SlotNode),
       mfind s.doctors did = some D → D.findSlot sid = some sl →
       (sl.taken = true →
          ∃ act : Action, act.type = ActionType.CANCEL ∧
            (s.scheduleCancelSlot did sid).2.undoStack = act :: s.undoStack) ∧
       (sl.taken = false →
          (s.scheduleCancelSlot did sid).2.undoStack = s.undoStack)) ∧
    (∀ (s : HospitalSystem) (a : Action) (rest : List Action),
       s.undoStack = a :: rest → (s.undoPop).2.undoStack = rest) ∧
    (∀ (s : HospitalSystem), s.undoStack = [] → s.undoPop = (false, s)) := by
  refine ⟨?_, ?_, ?_, ?_, ?_, ?_, ?_, ?_⟩
  · intro s p
    exact ⟨_, rfl, rfl⟩
  · intro s pid did sid D P sl hd hp hsid hsl hfree
    rw [enqueueRoutine_slot_eq s pid did sid D P sl hd hp hsid hsl hfree]
    exact ⟨_, rfl, rfl⟩
  · intro s pid did D P hd hp hnf
    rw [enqueueRoutine_fifo_eq s pid did D P hd hp hnf]
    exact ⟨_, rfl, rfl⟩
  · intro s pid sev P hp
    rw [triageInsert_ok_eq s pid sev P hp]
    exact ⟨_, rfl, rfl⟩
  · exact serveNext_pushes_serve
  · intro s did sid D sl hd hsl
    constructor
    · intro htaken
      rw [scheduleCancelSlot_taken_eq s did sid D sl hd hsl htaken]
      exact ⟨_, rfl, rfl⟩
    · intro hfree
      rw [scheduleCancelSlot_free_eq s did sid D sl hd hsl hfree]
  · exact undoPop_pops_top
  · exact undoPop_empty

/-- Concrete instantiation of `claim8_ledger_discipline`: a book pushes one
record, a serve pushes one record, and an undo pops exactly the top record. -/
theorem claim8_witness :
    (((wsBase 5 []).enqueueRoutine 1 1 (-1)).2.undoStack.length = 1) ∧
    ((((wsBase 5 []).enqueueRoutine 1 1 (-1)).2.undoPop).2.undoStack = []) := by
  obtain ⟨h1, h2, h3, h4, h5, h6, h7, h8⟩ := claim8_ledger_discipline
  obtain ⟨act, hty, hstk⟩ := h3 (wsBase 5 []) 1 1 (docSlots 5 []) { id := 1, name := "A" }
    rfl rfl (by decide)
  constructor
  · rw [hstk]
    rfl
  · rw [h7 ((wsBase 5 []).enqueueRoutine 1 1 (-1)).2 act [] (by rw [hstk]; rfl)]

/-! ## Claim C9 -/

/-- C9 counterexample: with a provider of routine-queue capacity 0, a
slot-fallback serve undone does *not* re-enqueue the token into the provider's
FIFO (the enqueue fails silently), so the claim's final conjunct fails as
stated: after the undo every FIFO is still empty. -/
theorem claim9_counterexample :
    capZeroServe.1
      = some { tokenId := 1, patientId := -1, doctorId := 1, slotId := 301,
               type := TokenType.ROUTINE } ∧
    (capZeroServe.2.undoPop).1 = true ∧
    ((capZeroServe.2.undoPop).2.doctors.map (fun p => p.2.toListQ)) = [[]] ∧
    ((capZeroServe.2.undoPop).2.doctors.map (fun p => p.2.sizeQ)) = [0] := by
  exact ⟨by decide, by decide, by decide, by decide⟩

/-- C9 (amended): when `serveNext` serves via the slot-sequence fallback
(triage empty, provider found, FIFO empty, an occupied slot exists), the
served token carries `patientId = -1` regardless of which patient booked the
slot, no patient record (hence no frequency counter) changes, and — provided
the FIFO is not full at the time of the undo, which for an immediate undo
means a nonzero capacity — undoing that serve re-enqueues the
`patientId = -1` token into the provider's FIFO. -/
theorem claim9_slot_fallback_patient (s : HospitalSystem) (d : Int) (D : Doctor)
    (sl : SlotNode) (hheap : s.triageHeap = [])
    (hd : mfind s.doctors d = some D) (hwf : D.wfQ) (hsz : D.sizeQ = 0)
    (hfind : D.slots.find? (fun n => n.taken) = some sl)
    (hcap : 0 < D.capacity) :
    (s.serveNext d).1
        = some { tokenId := sl.tokenId, patientId := -1, doctorId := d,
                 slotId := sl.slotId, type := TokenType.ROUTINE } ∧
    (s.serveNext d).2.patients = s.patients ∧
    ((s.serveNext d).2.undoPop).1 = true ∧
    ∃ D2, mfind ((s.serveNext d).2.undoPop).2.doctors d = some D2 ∧
      D2.toListQ
        = [{ tokenId := sl.tokenId, patientId := -1, doctorId := d,
             slotId := sl.slotId, type := TokenType.ROUTINE }] := by
  rw [serveNext_slot_fallback_eq s d D sl hheap hd hsz hfind]
  set D1 : Doctor := { D with slots := (updateFirstSlot D.slots (fun n => n.taken)
      (fun n => { n with taken := false, tokenId := -1 })) } with hD1def
  have hD1 : mfind (mset s.doctors d D1) d = some D1 := mfind_mset_self _ _ _
  have hwf1 : D1.wfQ := hwf
  have hlt : D1.sizeQ < D1.capacity := by
    show D.sizeQ < D.capacity
    omega
  refine ⟨rfl, rfl, ?_, ?_⟩
  · rw [undoPop_serve_routine_eq _ _ _ _ rfl rfl rfl hD1]
  · rw [undoPop_serve_routine_eq _ _ _ _ rfl rfl rfl hD1]
    refine ⟨_, mfind_mset_self _ _ _, ?_⟩
    obtain ⟨_, _, htl, _⟩ := D1.enqueueRoutine_spec
      { tokenId := sl.tokenId, patientId := -1, doctorId := d,
        slotId := sl.slotId, type := TokenType.ROUTINE } hwf1 hlt
    rw [htl, Doctor.toListQ_eq_nil D1 (show D1.sizeQ = 0 from hsz)]
    simp

/-- Concrete instantiation of `claim9_slot_fallback_patient` at capacity 1:
the slot-fallback serve returns a `patientId = -1` token and the immediate
undo re-enqueues it into the FIFO. -/
theorem claim9_witness :
    ((((wsBase 1 [301]).enqueueRoutine 1 1 301).2.serveNext 1).1
        = some { tokenId := 1, patientId := -1, doctorId := 1, slotId := 301,
                 type := TokenType.ROUTINE }) ∧
    ((((wsBase 1 [301]).enqueueRoutine 1 1 301).2.serveNext 1).2.undoPop).1 = true := by
  have h := claim9_slot_fallback_patient
    (((wsBase 1 [301]).enqueueRoutine 1 1 301).2) 1
    ((mfind (((wsBase 1 [301]).enqueueRoutine 1 1 301).2).doctors (1 : Int)).getD {})
    ((((mfind (((wsBase 1 [301]).enqueueRoutine 1 1 301).2).doctors
        (1 : Int)).getD {}).slots.find? (fun n => n.taken)).getD { slotId := 0 })
    rfl rfl (by decide) (by decide) (by decide) (by decide)
  exact ⟨h.1, h.2.2.1⟩

/-! ## Claim C10 -/

/-- C10: if `undo()` is applied to a routine `Serve` record while that token's
provider FIFO is full, it still reports success, increments the pending total
and decrements the served total, but the failed re-enqueue is ignored: the
provider map (hence the FIFO), the triage collection and the registry are left
exactly as they were, so the token reappears in no structure. -/
theorem claim10_undo_serve_full_fifo (s : HospitalSystem) (act : Action)
    (rest : List Action) (D : Doctor)
    (hstack : s.undoStack = act :: rest)
    (htype : act.type = ActionType.SERVE)
    (hrt : act.token.type = TokenType.ROUTINE)
    (hd : mfind s.doctors act.token.doctorId = some D)
    (hfull : D.sizeQ = D.capacity) :
    (s.undoPop).1 = true ∧
    (s.undoPop).2.pendingCountTotal = s.pendingCountTotal + 1 ∧
    (s.undoPop).2.servedCount = s.servedCount - 1 ∧
    (s.undoPop).2.undoStack = rest ∧
    (s.undoPop).2.doctors = s.doctors ∧
    (s.undoPop).2.triageHeap = s.triageHeap ∧
    (s.undoPop).2.patients = s.patients := by
  have hrt2 : act.token.type = TokenType.ROUTINE := hrt
  rw [undoPop_serve_routine_eq s act rest D hstack htype hrt2 hd]
  rw [Doctor.enqueueRoutine_full D act.token hfull]
  rw [mset_mfind_self s.doctors act.token.doctorId D hd]
  exact ⟨rfl, rfl, rfl, rfl, rfl, rfl, rfl⟩

/-- Concrete instantiation of `claim10_undo_serve_full_fifo` on a reachable
state (`overfillState`): the undo reports success and moves the counters while
the full FIFO silently drops the token. -/
theorem claim10_witness :
    (overfillState.undoPop).1 = true ∧
    (overfillState.undoPop).2.pendingCountTotal
      = overfillState.pendingCountTotal + 1 ∧
    (overfillState.undoPop).2.servedCount = overfillState.servedCount - 1 ∧
    (overfillState.undoPop).2.doctors = overfillState.doctors := by
  have hd : mfind overfillState.doctors (1 : Int)
      = some ((mfind overfillState.doctors (1 : Int)).getD {}) := rfl
  have h := claim10_undo_serve_full_fifo overfillState
    { type := ActionType.SERVE,
      token := { tokenId := 1, patientId := -1, doctorId := 1,
                 slotId := 201, type := TokenType.ROUTINE } }
    overfillState.undoStack.tail ((mfind overfillState.doctors (1 : Int)).getD {})
    (by decide) rfl rfl hd (by decide)
  exact ⟨h.1, h.2.1, h.2.2.1, h.2.2.2.2.1⟩

/-! ## Failure-path frame lemmas (used for claim C6) -/

theorem addDoctor_fail_eq (s : HospitalSystem) (i : Int) (nm sp : String) (c : Nat)
    (hf : (s.addDoctor i nm sp c).1 = false) : (s.addDoctor i nm sp c).2 = s := by
  unfold HospitalSystem.addDoctor at hf ⊢
  cases hd : mfind s.doctors i with
  | some D => rfl
  | none => rw [hd] at hf; simp at hf

theorem scheduleAddSlot_fail_eq (s : HospitalSystem) (d sid : Int) (st en : String)
    (hf : (s.scheduleAddSlot d sid st en).1 = false) :
    (s.scheduleAddSlot d sid st en).2 = s := by
  unfold HospitalSystem.scheduleAddSlot at hf ⊢
  cases hd : mfind s.doctors d with
  | none => rfl
  | some D => rw [hd] at hf; simp at hf

theorem scheduleCancelSlot_fail_eq (s : HospitalSystem) (d sid : Int)
    (hf : (s.scheduleCancelSlot d sid).1 = false) :
    (s.scheduleCancelSlot d sid).2 = s := by
  cases hd : mfind s.doctors d with
  | none =>
    unfold HospitalSystem.scheduleCancelSlot
    rw [hd]
  | some D =>
    cases hsl : D.findSlot sid with
    | none =>
      unfold HospitalSystem.scheduleCancelSlot
      simp only [hd, hsl]
    | some slot =>
      exfalso
      have hsl0 : D.slots.find? (fun n => n.slotId == sid) = some slot := hsl
      have hid : (slot.slotId == sid) = true :=
        @List.find?_some SlotNode (fun n => n.slotId == sid) slot D.slots hsl0
      by_cases ht : slot.taken = true
      · rw [scheduleCancelSlot_taken_eq s d sid D slot hd hsl ht] at hf
        have hfind : (updateFirstSlot D.slots (fun n => n.slotId == sid)
            (fun n => { n with taken := false, tokenId := -1 })).find?
              (fun n => n.slotId == sid)
            = some { slot with taken := false, tokenId := -1 } :=
          find?_updateFirstSlot D.slots (fun n => n.slotId == sid)
            (fun n => { n with taken := false, tokenId := -1 }) slot hsl0 hid
        have htrue := removeFirstSlot_found _ sid _ hfind
        rw [htrue] at hf
        exact Bool.noConfusion hf
      · have ht2 : slot.taken = false := by
          cases hb : slot.taken
          · rfl
          · exact absurd hb ht
        rw [scheduleCancelSlot_free_eq s d sid D slot hd hsl ht2] at hf
        have htrue := removeFirstSlot_found D.slots sid slot hsl0
        rw [htrue] at hf
        exact Bool.noConfusion hf

theorem serveNext_fail_eq (s : HospitalSystem) (d : Int)
    (hf : (s.serveNext d).1 = none) : (s.serveNext d).2 = s := by
  cases hheap : s.triageHeap with
  | cons tt restHeap =>
    exfalso
    have h1 := (serveNext_heap_head s d tt restHeap hheap).1
    rw [hf] at h1
    exact Option.noConfusion h1
  | nil =>
    cases hd : mfind s.doctors d with
    | none => rw [serveNext_nodoctor_eq s d hheap hd]
    | some D =>
      cases hdq : D.dequeueRoutine with
      | some p =>
        exfalso
        obtain ⟨tk, D1⟩ := p
        rw [serveNext_fifo_eq s d D tk D1 hheap hd hdq] at hf
        exact Option.noConfusion hf
      | none =>
        have hsz : D.sizeQ = 0 := by
          by_contra hne
          exact Doctor.dequeueRoutine_ne_none D hne hdq
        cases hfind : D.slots.find? (fun n => n.taken) with
        | none => rw [serveNext_nothing_eq s d D hheap hd hsz hfind]
        | some sl =>
          exfalso
          rw [serveNext_slot_fallback_eq s d D sl hheap hd hsz hfind] at hf
          exact Option.noConfusion hf

theorem enqueueRoutine_nodoctor_eq (s : HospitalSystem) (pid did sid : Int)
    (hd : mfind s.doctors did = none) :
    s.enqueueRoutine pid did sid = (-1, s) := by
  unfold HospitalSystem.enqueueRoutine
  rw [hd]

theorem enqueueRoutine_nopatient_eq (s : HospitalSystem) (pid did sid : Int)
    (D : Doctor) (hd : mfind s.doctors did = some D)
    (hp : mfind s.patients pid = none) :
    s.enqueueRoutine pid did sid = (-1, s) := by
  unfold HospitalSystem.enqueueRoutine
  simp only [hd, hp, Option.isNone_none, if_true]

theorem enqueueRoutine_noslot_eq (s : HospitalSystem) (pid did sid : Int)
    (D : Doctor) (P : Patient) (hd : mfind s.doctors did = some D)
    (hp : mfind s.patients pid = some P) (hsid : sid ≠ -1)
    (hsl : D.findSlot sid = none) :
    s.enqueueRoutine pid did sid
      = (-1, { s with nextTokenId := s.nextTokenId + 1 }) := by
  unfold HospitalSystem.enqueueRoutine
  simp only [hd, hp, Option.isNone_some, Bool.false_eq_true, if_false,
    if_pos hsid, hsl]

theorem enqueueRoutine_slottaken_eq (s : HospitalSystem) (pid did sid : Int)
    (D : Doctor) (P : Patient) (sl : SlotNode) (hd : mfind s.doctors did = some D)
    (hp : mfind s.patients pid = some P) (hsid : sid ≠ -1)
    (hsl : D.findSlot sid = some sl) (ht : sl.taken = true) :
    s.enqueueRoutine pid did sid
      = (-1, { s with nextTokenId := s.nextTokenId + 1 }) := by
  unfold HospitalSystem.enqueueRoutine
  simp only [hd, hp, Option.isNone_some, Bool.false_eq_true, if_false,
    if_pos hsid, hsl, ht, if_true]

theorem enqueueRoutine_fail_eq (s : HospitalSystem) (pid did sid : Int)
    (hpos : 0 < s.nextTokenId)
    (hf : (s.enqueueRoutine pid did sid).1 = -1) :
    (s.enqueueRoutine pid did sid).2 = s ∨
    (s.enqueueRoutine pid did sid).2 = { s with nextTokenId := s.nextTokenId + 1 } := by
  cases hd : mfind s.doctors did with
  | none =>
    rw [enqueueRoutine_nodoctor_eq s pid did sid hd]
    exact Or.inl rfl
  | some D =>
    cases hp : mfind s.patients pid with
    | none =>
      rw [enqueueRoutine_nopatient_eq s pid did sid D hd hp]
      exact Or.inl rfl
    | some P =>
      by_cases hsid : sid = -1
      · subst hsid
        by_cases hfull : D.sizeQ = D.capacity
        · rw [enqueueRoutine_fifo_full s pid did D P hd hp hfull]
          exact Or.inr rfl
        · rw [enqueueRoutine_fifo_eq s pid did D P hd hp hfull] at hf
          exfalso
          simp at hf
          omega
      · cases hsl : D.findSlot sid with
        | none =>
          rw [enqueueRoutine_noslot_eq s pid did sid D P hd hp hsid hsl]
          exact Or.inr rfl
        | some sl =>
          cases ht : sl.taken with
          | true =>
            rw [enqueueRoutine_slottaken_eq s pid did sid D P sl hd hp hsid hsl ht]
            exact Or.inr rfl
          | false =>
            rw [enqueueRoutine_slot_eq s pid did sid D P sl hd hp hsid hsl ht] at hf
            exfalso
            simp at hf
            omega

theorem triageInsert_fail_state (s : HospitalSystem) (pid sev : Int)
    (hf : (s.triageInsert pid sev).1 = false) : (s.triageInsert pid sev).2 = s := by
  cases hp : mfind s.patients pid with
  | none => rw [triageInsert_fail_eq s pid sev hp]
  | some P =>
    exfalso
    unfold HospitalSystem.triageInsert at hf
    rw [hp] at hf
    simp at hf

/-- On every failing `undoPop` the top ledger record (if any) is discarded but
the counters and the registry are untouched. -/
theorem undoPop_fail_frame (s : HospitalSystem) (hf : (s.undoPop).1 = false) :
    (s.undoPop).2.undoStack = s.undoStack.tail ∧
    (s.undoPop).2.pendingCountTotal = s.pendingCountTotal ∧
    (s.undoPop).2.servedCount = s.servedCount ∧
    (s.undoPop).2.patients = s.patients := by
  revert hf
  unfold HospitalSystem.undoPop
  cases hstack : s.undoStack with
  | nil =>
    intro hf
    exact ⟨hstack, rfl, rfl, rfl⟩
  | cons a rest =>
    obtain ⟨ty, tok, sid2, did2, snap, prev, sev, pidu, existed⟩ := a
    cases ty <;> simp only [] <;> (repeat' split) <;> intro hf <;>
      first
        | exact hf.elim
        | exact Bool.noConfusion hf
        | (rename_i h; exact Bool.noConfusion (h.symm.trans hf))
        | exact ⟨rfl, rfl, rfl, rfl⟩
        | (refine ⟨?_, ?_, ?_, ?_⟩ <;> first | rfl | trivial)

/-! ## Claim C7 -/

/-- C7 counterexample: `c7Trace` is reached from the empty system by real
operation calls (addDoctor, scheduleAddSlot, patientUpsert, enqueueRoutine,
serveNext, undoPop), yet in it the derived load — the sum of all providers'
routine-queue sizes plus the triage size plus the number of occupied slots —
is 1 while the reported pending counter is 2: the second `undoPop` incremented
the pending counter but its re-enqueue into the full capacity-1 FIFO was
silently dropped. -/
theorem claim7_counterexample :
    sysLoad c7Trace = 1 ∧ c7Trace.pendingCountTotal = 2 ∧
    ¬ loadInvariant c7Trace := by
  exact ⟨by decide, by decide, by decide⟩

/-- C7 (amended): the bookkeeping invariant — sum of providers' routine-queue
sizes, plus the triage collection size, plus the number of occupied slots,
equals the reported pending counter — is preserved by every forward operation
(addDoctor, scheduleAddSlot, scheduleCancelSlot, patientUpsert, bookRoutine,
triageInsert, serveNext), hence holds in every state reached from a state
satisfying it by forward operations alone.  It does **not** hold in all
reachable states once `undo` is admitted: undoing a routine `Serve` record
while the provider's FIFO is full increments the pending counter without
re-admitting the token (see `c7Trace`). -/
theorem claim7_forward_load_invariant (s : HospitalSystem) (ops : List SysOp)
    (h : loadInvariant s) : loadInvariant (runOps s ops) := by
  induction ops generalizing s with
  | nil => exact h
  | cons op rest ih => exact ih (applyOp s op) (applyOp_load s op h)

/-- Concrete instantiation of `claim7_forward_load_invariant`: the invariant
holds in the base state and after a slot booking, a triage insertion and two
serves. -/
theorem claim7_witness :
    loadInvariant (wsBase 1 [201]) ∧
    loadInvariant (runOps (wsBase 1 [201])
      [SysOp.book 1 1 201, SysOp.triage 2 3, SysOp.serve 1, SysOp.serve 1]) :=
  ⟨by decide,
   claim7_forward_load_invariant (wsBase 1 [201])
     [SysOp.book 1 1 201, SysOp.triage 2 3, SysOp.serve 1, SysOp.serve 1]
     (by decide)⟩

/-! ## Structural lemmas for the undo-inverse analysis (claim C3) -/

theorem updateFirstSlot_twice (l : List SlotNode) (p : SlotNode → Bool)
    (f g : SlotNode → SlotNode) (sl : SlotNode)
    (hfind : l.find? p = some sl) (hpf : p (f sl) = true) :
    updateFirstSlot (updateFirstSlot l p f) p g
      = updateFirstSlot l p (fun n => g (f n)) := by
  induction l with
  | nil => simp [List.find?] at hfind
  | cons n rest ih =>
    by_cases hp : p n = true
    · rw [@List.find?_cons_of_pos SlotNode p n rest hp] at hfind
      injection hfind with hfind
      subst hfind
      simp [updateFirstSlot, hp, hpf]
    · rw [@List.find?_cons_of_neg SlotNode p n rest (by simpa using hp)] at hfind
      simp [updateFirstSlot, hp, ih hfind]

theorem updateFirstSlot_fix (l : List SlotNode) (p : SlotNode → Bool)
    (f : SlotNode → SlotNode) (sl : SlotNode)
    (hfind : l.find? p = some sl) (hfix : f sl = sl) :
    updateFirstSlot l p f = l := by
  induction l with
  | nil => rfl
  | cons n rest ih =>
    by_cases hp : p n = true
    · rw [@List.find?_cons_of_pos SlotNode p n rest hp] at hfind
      injection hfind with hfind
      subst hfind
      simp [updateFirstSlot, hp, hfix]
    · rw [@List.find?_cons_of_neg SlotNode p n rest (by simpa using hp)] at hfind
      simp [updateFirstSlot, hp, ih hfind]

theorem removeFirstToken_append_fresh (l : List Token) (t : Token) (tid : Int)
    (hfresh : ∀ x ∈ l, x.tokenId ≠ tid) (ht : t.tokenId = tid) :
    removeFirstToken (l ++ [t]) tid = (l, true) := by
  induction l with
  | nil => simp [removeFirstToken, ht]
  | cons x rest ih =>
    have hx : x.tokenId ≠ tid := hfresh x (by simp)
    have hrest : ∀ y ∈ rest, y.tokenId ≠ tid := fun y hy => hfresh y (by simp [hy])
    simp only [List.cons_append]
    unfold removeFirstToken
    rw [if_neg hx, ih hrest]

theorem removeFirstTriaged_heapPush_fresh (l : List TriagedToken)
    (x : TriagedToken) (tid : Int)
    (hfresh : ∀ e ∈ l, e.token.tokenId ≠ tid) (hx : x.token.tokenId = tid) :
    removeFirstTriaged (heapPush x l) tid = (l, true) := by
  induction l with
  | nil => simp [heapPush, removeFirstTriaged, hx]
  | cons y ys ih =>
    have hy : y.token.tokenId ≠ tid := hfresh y (by simp)
    have hys : ∀ e ∈ ys, e.token.tokenId ≠ tid := fun e he => hfresh e (by simp [he])
    unfold heapPush
    by_cases hgt : y.gt x = true
    · rw [if_pos hgt]
      unfold removeFirstTriaged
      rw [if_pos hx]
    · rw [if_neg hgt]
      unfold removeFirstTriaged
      rw [if_neg hy, ih hys]

theorem heapPush_head_restore (tt : TriagedToken) (rest : List TriagedToken)
    (hmin : ∀ r ∈ rest, r.gt tt = true) : heapPush tt rest = tt :: rest := by
  cases rest with
  | nil => rfl
  | cons y ys => exact heapPush_cons_of_head_gt tt y ys (hmin y (by simp))

theorem Token_set_type_emergency (t : Token) (h : t.type = TokenType.EMERGENCY) :
    ({ t with type := TokenType.EMERGENCY } : Token) = t := by
  obtain ⟨a, b, c, d, ty⟩ := t
  simp only [] at h
  rw [h]

theorem TriagedToken_eta (tt : TriagedToken) :
    ({ severity := tt.severity, token := tt.token } : TriagedToken) = tt := by
  obtain ⟨sv, tok⟩ := tt
  rfl

theorem SlotNode_reset_self (sl : SlotNode) (htaken : sl.taken = false)
    (htid : sl.tokenId = -1) :
    ({ sl with taken := false, tokenId := -1 } : SlotNode) = sl := by
  obtain ⟨a, b, c, tk, ti⟩ := sl
  simp only [] at htaken htid
  rw [htaken, htid]

theorem undoPop_book_slot_eq (s : HospitalSystem) (act : Action)
    (rest : List Action) (D : Doctor) (slot : SlotNode)
    (hstack : s.undoStack = act :: rest)
    (htype : act.type = ActionType.BOOK)
    (hslot : act.token.slotId ≠ -1)
    (hd : mfind s.doctors act.doctorId = some D)
    (hfindsl : D.findSlot act.token.slotId = some slot)
    (hcond : (slot.taken && slot.tokenId == act.token.tokenId) = true) :
    s.undoPop
      = (true,
         { s with
            undoStack := rest,
            doctors := mset s.doctors act.doctorId
              ({ D with slots := (updateFirstSlot D.slots
                  (fun n => n.slotId == act.token.slotId)
                  (fun n => { n with taken := false, tokenId := -1 })) }),
            pendingCountTotal := s.pendingCountTotal - 1 }) := by
  unfold HospitalSystem.undoPop
  simp only [hstack, htype, hd, hfindsl, hcond]
  rw [if_pos hslot]
  simp

theorem undoPop_book_fifo_eq (s : HospitalSystem) (act : Action)
    (rest : List Action) (D : Doctor)
    (hstack : s.undoStack = act :: rest)
    (htype : act.type = ActionType.BOOK)
    (hslot : act.token.slotId = -1)
    (hd : mfind s.doctors act.doctorId = some D) :
    s.undoPop
      = ((removeFirstToken D.drainQueue.1 act.token.tokenId).2,
         { s with
            undoStack := rest,
            doctors := mset s.doctors act.doctorId
              ((removeFirstToken D.drainQueue.1 act.token.tokenId).1.foldl
                (fun d t => (Doctor.enqueueRoutine d t).2) D.drainQueue.2),
            pendingCountTotal :=
              if (removeFirstToken D.drainQueue.1 act.token.tokenId).2
              then s.pendingCountTotal - 1 else s.pendingCountTotal }) := by
  unfold HospitalSystem.undoPop
  simp only [hstack, htype, hd]
  rw [if_neg (by simp [hslot])]

theorem undoPop_register_existed_eq (s : HospitalSystem) (act : Action)
    (rest : List Action)
    (hstack : s.undoStack = act :: rest)
    (htype : act.type = ActionType.REGISTER_PATIENT)
    (hex : act.patientExistedBefore = true) :
    s.undoPop
      = (true,
         { s with
            undoStack := rest,
            patients := mset s.patients act.patientIdForUpsert act.patientSnapshot }) := by
  unfold HospitalSystem.undoPop
  simp only [hstack, htype, hex, if_true]

theorem undoPop_register_new_eq (s : HospitalSystem) (act : Action)
    (rest : List Action)
    (hstack : s.undoStack = act :: rest)
    (htype : act.type = ActionType.REGISTER_PATIENT)
    (hex : act.patientExistedBefore = false) :
    s.undoPop
      = (true,
         { s with
            undoStack := rest,
            patients := merase s.patients act.patientIdForUpsert }) := by
  unfold HospitalSystem.undoPop
  simp only [hstack, htype, hex, Bool.false_eq_true, if_false]

theorem undoPop_triage_eq (s : HospitalSystem) (act : Action)
    (rest : List Action)
    (hstack : s.undoStack = act :: rest)
    (htype : act.type = ActionType.TRIAGE_INSERT) :
    s.undoPop
      = ((removeFirstTriaged s.triageHeap act.token.tokenId).2,
         { s with
            undoStack := rest,
            triageHeap := (removeFirstTriaged s.triageHeap act.token.tokenId).1.foldl
              (fun h x => heapPush x h) [],
            pendingCountTotal :=
              if (removeFirstTriaged s.triageHeap act.token.tokenId).2
              then s.pendingCountTotal - 1 else s.pendingCountTotal }) := by
  unfold HospitalSystem.undoPop
  simp only [hstack, htype]

/-- Undoing a patient upsert is an exact inverse: the registry binding is
restored (overwriting a previous binding, or erasing a fresh one) and nothing
else was touched. -/
theorem patientUpsert_undo (s : HospitalSystem) (p : Patient) :
    (s.patientUpsert p).undoPop = (true, s) := by
  unfold HospitalSystem.patientUpsert HospitalSystem.undoPop
  cases hp : mfind s.patients p.id with
  | some q =>
    simp only [hp, Option.isSome_some, if_true, mset_mset,
      mset_mfind_self s.patients p.id q hp]
  | none =>
    simp only [hp, Option.isSome_none, Bool.false_eq_true, if_false,
      mset_of_mfind_none s.patients p.id p hp,
      merase_append_of_mfind_none s.patients p.id p hp]

/-- Undoing a successful slot booking restores the slot sequence, the
counters and the schedules exactly; only the consumed token id and the bumped
patient-frequency counter remain. -/
theorem bookSlot_undo (s : HospitalSystem) (pid did sid : Int)
    (D : Doctor) (P : Patient) (sl : SlotNode)
    (hd : mfind s.doctors did = some D) (hp : mfind s.patients pid = some P)
    (hsid : sid ≠ -1) (hsl : D.findSlot sid = some sl) (hfree : sl.taken = false)
    (hfresh : sl.tokenId = -1) :
    ((s.enqueueRoutine pid did sid).2).undoPop
      = (true, { s with nextTokenId := s.nextTokenId + 1,
                        patients := bumpFreq s.patients pid }) := by
  have hsl0 : D.slots.find? (fun n => n.slotId == sid) = some sl := hsl
  have hid : (sl.slotId == sid) = true :=
    @List.find?_some SlotNode (fun n => n.slotId == sid) sl D.slots hsl0
  have hpf : (((fun n : SlotNode => { n with taken := true, tokenId := s.nextTokenId }) sl).slotId == sid) = true := hid
  have e1 := congrArg Prod.snd (enqueueRoutine_slot_eq s pid did sid D P sl hd hp hsid hsl hfree)
  rw [e1]
  have hfind2 := find?_updateFirstSlot D.slots (fun n => n.slotId == sid)
    (fun n => { n with taken := true, tokenId := s.nextTokenId }) sl hsl0 hpf
  have htwice := updateFirstSlot_twice D.slots (fun n => n.slotId == sid)
    (fun n => { n with taken := true, tokenId := s.nextTokenId })
    (fun n => { n with taken := false, tokenId := -1 }) sl hsl0 hpf
  have hfix := updateFirstSlot_fix D.slots (fun n => n.slotId == sid)
    (fun n => { n with taken := false, tokenId := -1 }) sl hsl0
    (SlotNode_reset_self sl hfree hfresh)
  unfold HospitalSystem.undoPop
  simp only [Doctor.findSlot, mfind_mset_self, hsid, hfind2, ne_eq,
    not_false_iff, if_true, beq_self_eq_true, Bool.and_self, Bool.true_and,
    Bool.and_true, mset_mset, htwice, hfix,
    mset_mfind_self s.doctors did D hd, Int.add_sub_cancel]

/-- Undoing a triage insertion into a sorted heap with fresh token ids is an
exact inverse up to the consumed token id and the bumped frequency counter. -/
theorem triageInsert_undo (s : HospitalSystem) (pid sev : Int) (P : Patient)
    (hp : mfind s.patients pid = some P)
    (hs : heapSorted s.triageHeap)
    (hfreshh : ∀ e ∈ s.triageHeap, e.token.tokenId ≠ s.nextTokenId) :
    ((s.triageInsert pid sev).2).undoPop
      = (true, { s with nextTokenId := s.nextTokenId + 1,
                        patients := bumpFreq s.patients pid }) := by
  have e1 := congrArg Prod.snd (triageInsert_ok_eq s pid sev P hp)
  rw [e1]
  have hrm := removeFirstTriaged_heapPush_fresh s.triageHeap
    ({ severity := sev,
       token := { tokenId := s.nextTokenId, patientId := pid, doctorId := -1, slotId := -1, type := TokenType.EMERGENCY } })
    s.nextTokenId hfreshh rfl
  have hfold := foldl_heapPush_sorted s.triageHeap hs
  unfold HospitalSystem.undoPop
  simp only [hrm, hfold, if_true, Int.add_sub_cancel]

/-- Undoing a triage serve restores the heap and the counters exactly when the
served entry was the strict minimum; only the frequency bump survives. -/
theorem serveTriage_undo (s : HospitalSystem) (d : Int) (tt : TriagedToken)
    (rest : List TriagedToken) (hheap : s.triageHeap = tt :: rest)
    (hem : tt.token.type = TokenType.EMERGENCY)
    (hmin : ∀ r ∈ rest, r.gt tt = true) :
    ((s.serveNext d).2).undoPop
      = (true, { s with
          patients := (if tt.token.patientId ≠ -1
            then bumpFreq s.patients tt.token.patientId else s.patients) }) := by
  obtain ⟨h1, h2, h3, h4, h5, h6, h7, h8⟩ := serveNext_heap_head s d tt rest hheap
  rw [undoPop_serve_emergency_eq _ _ s.undoStack h4 rfl rfl]
  simp only [h2, h3, h5, h6, h7, h8,
    Token_set_type_emergency tt.token hem, TriagedToken_eta,
    heapPush_head_restore tt rest hmin, Int.sub_add_cancel, Int.add_sub_cancel,
    ← hheap]

/-- Undoing a routine FIFO booking restores the queue observationally: its
contents and order, its size, and the counters all return to their
pre-booking values (the internal cursor representation is reset), leaving
only the consumed token id and the frequency bump. -/
theorem bookFifo_undo (s : HospitalSystem) (pid did : Int) (D : Doctor) (P : Patient)
    (hd : mfind s.doctors did = some D) (hp : mfind s.patients pid = some P)
    (hwf : D.wfQ) (hlt : D.sizeQ < D.capacity)
    (hfreshq : ∀ t ∈ D.toListQ, t.tokenId ≠ s.nextTokenId) :
    (((s.enqueueRoutine pid did (-1)).2).undoPop).1 = true ∧
    ∃ D2 : Doctor,
      (((s.enqueueRoutine pid did (-1)).2).undoPop).2
        = { s with nextTokenId := s.nextTokenId + 1,
                   patients := bumpFreq s.patients pid,
                   doctors := mset s.doctors did D2 } ∧
      D2.toListQ = D.toListQ ∧ D2.sizeQ = D.sizeQ ∧ D2.slots = D.slots ∧
      D2.capacity = D.capacity := by
  have hnf : D.sizeQ ≠ D.capacity := Nat.ne_of_lt hlt
  have e1 := congrArg Prod.snd (enqueueRoutine_fifo_eq s pid did D P hd hp hnf)
  rw [e1]
  obtain ⟨hok, hwfE, htlE, hszE, hslE, hcapE, hfrE, hidE, hnmE, hspE⟩ :=
    D.enqueueRoutine_spec { tokenId := s.nextTokenId, patientId := pid, doctorId := did, slotId := -1, type := TokenType.ROUTINE } hwf hlt
  have hdr := Doctor.drainQueue_spec
    (D.enqueueRoutine { tokenId := s.nextTokenId, patientId := pid, doctorId := did, slotId := -1, type := TokenType.ROUTINE }).2 hwfE
  have hrm := removeFirstToken_append_fresh D.toListQ
    { tokenId := s.nextTokenId, patientId := pid, doctorId := did, slotId := -1, type := TokenType.ROUTINE }
    s.nextTokenId hfreshq rfl
  have hcap0 :
      (D.enqueueRoutine { tokenId := s.nextTokenId, patientId := pid, doctorId := did, slotId := -1, type := TokenType.ROUTINE }).2.resetQ.sizeQ
        + D.toListQ.length
      ≤ (D.enqueueRoutine { tokenId := s.nextTokenId, patientId := pid, doctorId := did, slotId := -1, type := TokenType.ROUTINE }).2.resetQ.capacity := by
    show 0 + D.toListQ.length
      ≤ (D.enqueueRoutine { tokenId := s.nextTokenId, patientId := pid, doctorId := did, slotId := -1, type := TokenType.ROUTINE }).2.capacity
    rw [hcapE, Doctor.toListQ_length]
    omega
  obtain ⟨hwf2, htl2, hsz2, hsl2, hcap2, hid2, hnm2, hsp2⟩ :=
    Doctor.foldl_enqueue_spec D.toListQ
      (D.enqueueRoutine { tokenId := s.nextTokenId, patientId := pid, doctorId := did, slotId := -1, type := TokenType.ROUTINE }).2.resetQ
      (Doctor.resetQ_wfQ _) hcap0
  unfold HospitalSystem.undoPop
  simp only [mfind_mset_self, hdr, htlE, hrm, mset_mset, if_true, ne_eq,
    Int.add_sub_cancel]
  refine ⟨rfl, _, rfl, ?_, ?_, ?_, ?_⟩
  · rw [htl2, Doctor.toListQ_eq_nil _ rfl]
    simp
  · rw [hsz2, Doctor.toListQ_length]
    show 0 + D.sizeQ = D.sizeQ
    omega
  · rw [hsl2]
    show (D.enqueueRoutine { tokenId := s.nextTokenId, patientId := pid, doctorId := did, slotId := -1, type := TokenType.ROUTINE }).2.slots = D.slots
    exact hslE
  · rw [hcap2]
    exact hcapE

/-- Undoing a routine FIFO serve restores the counters but rotates the queue:
the served token is re-enqueued at the rear, so the queue becomes
`tail ++ [head]` rather than the original `head :: tail`. -/
theorem serveFifo_undo (s : HospitalSystem) (d : Int) (D : Doctor)
    (hheap : s.triageHeap = []) (hd : mfind s.doctors d = some D)
    (hwf : D.wfQ) (hne : D.sizeQ ≠ 0)
    (hrt : (D.circBuffer D.frontIdx).type = TokenType.ROUTINE)
    (hdid : (D.circBuffer D.frontIdx).doctorId = d) :
    (((s.serveNext d).2).undoPop).1 = true ∧
    ∃ D2 : Doctor,
      (((s.serveNext d).2).undoPop).2 = { s with doctors := mset s.doctors d D2 } ∧
      D2.toListQ = D.toListQ.tail ++ [D.circBuffer D.frontIdx] ∧
      D2.sizeQ = D.sizeQ ∧ D2.slots = D.slots ∧ D2.capacity = D.capacity := by
  obtain ⟨D1, hdq, hwf1, htl1, hsz1, hsl1, hcap1, hcb1, hrs1, hid1, hnm1, hsp1⟩ :=
    D.dequeueRoutine_spec hwf hne
  have e1 := congrArg Prod.snd (serveNext_fifo_eq s d D (D.circBuffer D.frontIdx) D1 hheap hd hdq)
  rw [e1]
  have hlt1 : D1.sizeQ < D1.capacity := by
    rw [hsz1, hcap1]
    have := hwf.1
    omega
  obtain ⟨hok2, hwf2, htl2, hsz2, hsl2, hcap2, hfr2, hid2, hnm2, hsp2⟩ :=
    D1.enqueueRoutine_spec (D.circBuffer D.frontIdx) hwf1 hlt1
  unfold HospitalSystem.undoPop
  simp only [hrt, hdid, mfind_mset_self, mset_mset, Int.sub_add_cancel,
    Int.add_sub_cancel]
  refine ⟨rfl, _, rfl, ?_, ?_, ?_, ?_⟩
  · rw [htl2]
    rw [show D.toListQ.tail = D1.toListQ from by rw [htl1]; rfl]
  · rw [hsz2, hsz1]
    omega
  · rw [hsl2, hsl1]
  · rw [hcap2, hcap1]

/-- A successful cancel of an occupied slot cannot be undone: the slot node
was removed, so the immediate `undo` fails and restores nothing beyond
popping its own ledger record. -/
theorem cancelTaken_undo_fails (s : HospitalSystem) (did sid : Int)
    (D : Doctor) (sl : SlotNode)
    (hd : mfind s.doctors did = some D)
    (hsl : D.findSlot sid = some sl) (htaken : sl.taken = true)
    (huniq : countSlotId D.slots sid = 1) :
    (s.scheduleCancelSlot did sid).1 = true ∧
    (s.scheduleCancelSlot did sid).2.pendingCountTotal = s.pendingCountTotal - 1 ∧
    (((s.scheduleCancelSlot did sid).2).undoPop).1 = false ∧
    (((s.scheduleCancelSlot did sid).2).undoPop).2
      = { (s.scheduleCancelSlot did sid).2 with undoStack := s.undoStack } := by
  have hsl0 : D.slots.find? (fun n => n.slotId == sid) = some sl := hsl
  have hpmem : ((fun n : SlotNode => n.slotId == sid) sl) = true :=
    @List.find?_some SlotNode (fun n => n.slotId == sid) sl D.slots hsl0
  rw [scheduleCancelSlot_taken_eq s did sid D sl hd hsl htaken]
  set Dc : Doctor := { D with slots := (removeFirstSlot (updateFirstSlot D.slots
      (fun n => n.slotId == sid)
      (fun n => { n with taken := false, tokenId := -1 })) sid).2 } with hDcdef
  have hcu : countSlotId (updateFirstSlot D.slots (fun n => n.slotId == sid)
      (fun n => { n with taken := false, tokenId := -1 })) sid
      = countSlotId D.slots sid :=
    countSlotId_updateFirstSlot D.slots _ _ sid (fun n => rfl)
  have hmiss : Dc.findSlot sid = none := by
    show (removeFirstSlot (updateFirstSlot D.slots (fun n => n.slotId == sid)
      (fun n => { n with taken := false, tokenId := -1 })) sid).2.find?
      (fun n => n.slotId == sid) = none
    apply find?_removeFirstSlot_none
    rw [hcu, huniq]
  have hd2 : mfind (mset s.doctors did Dc) did = some Dc := mfind_mset_self _ _ _
  have hfx : ((fun n : SlotNode => n.slotId == sid)
      ({ sl with taken := false, tokenId := -1 })) = true := by
    simpa using hpmem
  have hsl2 : (updateFirstSlot D.slots (fun n => n.slotId == sid)
      (fun n => { n with taken := false, tokenId := -1 })).find?
      (fun n => n.slotId == sid)
      = some ({ sl with taken := false, tokenId := -1 }) :=
    find?_updateFirstSlot D.slots _ _ sl hsl0 hfx
  have hfound : (removeFirstSlot (updateFirstSlot D.slots (fun n => n.slotId == sid)
      (fun n => { n with taken := false, tokenId := -1 })) sid).1 = true :=
    removeFirstSlot_found _ sid ({ sl with taken := false, tokenId := -1 }) hsl2
  refine ⟨hfound, rfl, ?_, ?_⟩
  · rw [undoPop_cancel_fail_eq _ _ _ Dc rfl rfl hd2 hmiss]
  · rw [undoPop_cancel_fail_eq _ _ _ Dc rfl rfl hd2 hmiss]

/-! ## Claim C6 -/

/-- C6 counterexample: on `wsBase 5 []` booking against the nonexistent slot 5
fails (`-1`) yet advances the token-id generator, observably: the very same
successful slotless booking returns token id 2 after the failed call but
token id 1 without it, so the failed call did not leave the state exactly as
it was. -/
theorem claim6_counterexample :
    ((wsBase 5 []).enqueueRoutine 1 1 5).1 = -1 ∧
    ((wsBase 5 []).enqueueRoutine 1 1 5).2.nextTokenId
        = (wsBase 5 []).nextTokenId + 1 ∧
    (((wsBase 5 []).enqueueRoutine 1 1 5).2.enqueueRoutine 1 1 (-1)).1 = 2 ∧
    ((wsBase 5 []).enqueueRoutine 1 1 (-1)).1 = 1 := by
  exact ⟨by decide, by decide, by decide, by decide⟩

/-- C6 (amended): failing operations are atomic up to two documented
exceptions.  A failing `addDoctor`, `scheduleAddSlot`, `scheduleCancelSlot`,
`triageInsert` or `serveNext` returns the state exactly unchanged.  A failing
`bookRoutine` leaves the state unchanged when it fails at the provider or
patient check, but when it fails later (missing or occupied slot, full FIFO)
it has already consumed a token id: the state is the original with
`nextTokenId` advanced by one.  A failing `undoPop` leaves the counters and
the registry unchanged but discards the top ledger record. -/
theorem claim6_failure_atomicity (s : HospitalSystem)
    (docId pid did sid sev : Int) (nm sp st en : String) (c : Nat)
    (hpos : 0 < s.nextTokenId) :
    ((s.addDoctor docId nm sp c).1 = false → (s.addDoctor docId nm sp c).2 = s) ∧
    ((s.scheduleAddSlot did sid st en).1 = false →
        (s.scheduleAddSlot did sid st en).2 = s) ∧
    ((s.scheduleCancelSlot did sid).1 = false → (s.scheduleCancelSlot did sid).2 = s) ∧
    ((s.triageInsert pid sev).1 = false → (s.triageInsert pid sev).2 = s) ∧
    ((s.serveNext did).1 = none → (s.serveNext did).2 = s) ∧
    ((s.enqueueRoutine pid did sid).1 = -1 →
        (s.enqueueRoutine pid did sid).2 = s ∨
        (s.enqueueRoutine pid did sid).2
          = { s with nextTokenId := s.nextTokenId + 1 }) ∧
    ((s.undoPop).1 = false →
        (s.undoPop).2.undoStack = s.undoStack.tail ∧
        (s.undoPop).2.pendingCountTotal = s.pendingCountTotal ∧
        (s.undoPop).2.servedCount = s.servedCount ∧
        (s.undoPop).2.patients = s.patients) := by
  refine ⟨fun hf => addDoctor_fail_eq s docId nm sp c hf,
          fun hf => scheduleAddSlot_fail_eq s did sid st en hf,
          fun hf => scheduleCancelSlot_fail_eq s did sid hf,
          fun hf => triageInsert_fail_state s pid sev hf,
          fun hf => serveNext_fail_eq s did hf,
          fun hf => enqueueRoutine_fail_eq s pid did sid hpos hf,
          fun hf => undoPop_fail_frame s hf⟩

/-- Concrete instantiation of `claim6_failure_atomicity` on `wsBase 5 []`:
a duplicate `addDoctor`, a cancel of a nonexistent slot and a `serveNext`
with nothing to serve leave the state exactly unchanged; a booking against a
nonexistent slot leaves the state unchanged except possibly for the advanced
token-id generator; a failing `undoPop` leaves the registry unchanged. -/
theorem claim6_witness :
    ((wsBase 5 []).addDoctor 1 "X" "Y" 3).2 = wsBase 5 [] ∧
    ((wsBase 5 []).scheduleCancelSlot 1 5).2 = wsBase 5 [] ∧
    ((wsBase 5 []).serveNext 1).2 = wsBase 5 [] ∧
    (((wsBase 5 []).enqueueRoutine 1 1 5).2 = wsBase 5 [] ∨
     ((wsBase 5 []).enqueueRoutine 1 1 5).2
        = { wsBase 5 [] with nextTokenId := (wsBase 5 []).nextTokenId + 1 }) ∧
    ((wsBase 5 []).undoPop).2.patients = (wsBase 5 []).patients := by
  have h := claim6_failure_atomicity (wsBase 5 []) 1 1 1 5 2 "X" "Y" "s" "e" 3
    (by decide)
  exact ⟨h.1 (by decide), h.2.2.1 (by decide), h.2.2.2.2.1 rfl,
         h.2.2.2.2.2.1 (by decide), (h.2.2.2.2.2.2 (by decide)).2.2.2⟩

/-! ## Claim C3 -/

/-- C3 counterexample: book two slotless routine tokens (ids 1, 2) with
provider 1, serve once (token 1 is served), then undo.  The undo reports
success and restores the pending and served counters, but the provider FIFO
reads `[2, 1]` instead of the pre-operation `[1, 2]`: the served token was
re-enqueued at the rear, so the FIFO order is not restored. -/
theorem claim3_counterexample :
    ((((wsBase 5 []).enqueueRoutine 1 1 (-1)).2.enqueueRoutine 2 1 (-1)).2.serveNext 1).1
      = some { tokenId := 1, patientId := 1, doctorId := 1, slotId := -1,
               type := TokenType.ROUTINE } ∧
    (((((wsBase 5 []).enqueueRoutine 1 1 (-1)).2.enqueueRoutine 2 1
        (-1)).2.serveNext 1).2.undoPop).1 = true ∧
    ((((((wsBase 5 []).enqueueRoutine 1 1 (-1)).2.enqueueRoutine 2 1
        (-1)).2.serveNext 1).2.undoPop).2).pendingCountTotal
      = ((((wsBase 5 []).enqueueRoutine 1 1 (-1)).2.enqueueRoutine 2 1
        (-1)).2).pendingCountTotal ∧
    ((((((wsBase 5 []).enqueueRoutine 1 1 (-1)).2.enqueueRoutine 2 1
        (-1)).2.serveNext 1).2.undoPop).2).servedCount
      = ((((wsBase 5 []).enqueueRoutine 1 1 (-1)).2.enqueueRoutine 2 1
        (-1)).2).servedCount ∧
    ((mfind ((((((wsBase 5 []).enqueueRoutine 1 1 (-1)).2.enqueueRoutine 2 1
        (-1)).2.serveNext 1).2.undoPop).2).doctors 1).getD {}).toListQ.map
        (fun t => t.tokenId) = [2, 1] ∧
    ((mfind ((((wsBase 5 []).enqueueRoutine 1 1 (-1)).2.enqueueRoutine 2 1
        (-1)).2).doctors 1).getD {}).toListQ.map
        (fun t => t.tokenId) = [1, 2] := by
  exact ⟨by decide, by decide, by decide, by decide, by decide, by decide⟩

/-- C3 (amended): the immediate `undo` of a successful mutating operation is
only a partial inverse.  It is an exact inverse for a patient upsert; for a
slot booking, a triage insertion (into a sorted heap with fresh token ids)
and a triage serve (of the strict minimum) it restores the counters and the
affected structure exactly, leaving only the consumed token id and the
unreverted patient-frequency counter; for a routine FIFO booking it restores
the FIFO contents and order observationally (the internal cursor is reset).
But for a routine FIFO serve the counters return while the served token is
re-enqueued at the rear — the FIFO order becomes `tail ++ [head]` — and a
cancel of an occupied slot cannot be undone at all: the immediate `undo`
fails, restoring nothing beyond popping its own ledger record. -/
theorem claim3_undo_partial_inverse :
    (∀ (s : HospitalSystem) (p : Patient), (s.patientUpsert p).undoPop = (true, s)) ∧
    (∀ (s : HospitalSystem) (pid did sid : Int) (D : Doctor) (P : Patient)
        (sl : SlotNode),
      mfind s.doctors did = some D → mfind s.patients pid = some P →
      sid ≠ -1 → D.findSlot sid = some sl → sl.taken = false → sl.tokenId = -1 →
      ((s.enqueueRoutine pid did sid).2).undoPop
        = (true, { s with nextTokenId := s.nextTokenId + 1,
                          patients := bumpFreq s.patients pid })) ∧
    (∀ (s : HospitalSystem) (pid sev : Int) (P : Patient),
      mfind s.patients pid = some P → heapSorted s.triageHeap →
      (∀ e ∈ s.triageHeap, e.token.tokenId ≠ s.nextTokenId) →
      ((s.triageInsert pid sev).2).undoPop
        = (true, { s with nextTokenId := s.nextTokenId + 1,
                          patients := bumpFreq s.patients pid })) ∧
    (∀ (s : HospitalSystem) (d : Int) (tt : TriagedToken) (rest : List TriagedToken),
      s.triageHeap = tt :: rest → tt.token.type = TokenType.EMERGENCY →
      (∀ r ∈ rest, r.gt tt = true) →
      ((s.serveNext d).2).undoPop
        = (true, { s with patients := (if tt.token.patientId ≠ -1
            then bumpFreq s.patients tt.token.patientId else s.patients) })) ∧
    (∀ (s : HospitalSystem) (pid did : Int) (D : Doctor) (P : Patient),
      mfind s.doctors did = some D → mfind s.patients pid = some P →
      D.wfQ → D.sizeQ < D.capacity →
      (∀ t ∈ D.toListQ, t.tokenId ≠ s.nextTokenId) →
      (((s.enqueueRoutine pid did (-1)).2).undoPop).1 = true ∧
      ∃ D2 : Doctor,
        (((s.enqueueRoutine pid did (-1)).2).undoPop).2
          = { s with nextTokenId := s.nextTokenId + 1,
                     patients := bumpFreq s.patients pid,
                     doctors := mset s.doctors did D2 } ∧
        D2.toListQ = D.toListQ ∧ D2.sizeQ = D.sizeQ ∧ D2.slots = D.slots ∧
        D2.capacity = D.capacity) ∧
    (∀ (s : HospitalSystem) (d : Int) (D : Doctor),
      s.triageHeap = [] → mfind s.doctors d = some D → D.wfQ → D.sizeQ ≠ 0 →
      (D.circBuffer D.frontIdx).type = TokenType.ROUTINE →
      (D.circBuffer D.frontIdx).doctorId = d →
      (((s.serveNext d).2).undoPop).1 = true ∧
      ∃ D2 : Doctor,
        (((s.serveNext d).2).undoPop).2 = { s with doctors := mset s.doctors d D2 } ∧
        D2.toListQ = D.toListQ.tail ++ [D.circBuffer D.frontIdx] ∧
        D2.sizeQ = D.sizeQ ∧ D2.slots = D.slots ∧ D2.capacity = D.capacity) ∧
    (∀ (s : HospitalSystem) (did sid : Int) (D : Doctor) (sl : SlotNode),
      mfind s.doctors did = some D → D.findSlot sid = some sl → sl.taken = true →
      countSlotId D.slots sid = 1 →
      (s.scheduleCancelSlot did sid).1 = true ∧
      (s.scheduleCancelSlot did sid).2.pendingCountTotal = s.pendingCountTotal - 1 ∧
      (((s.scheduleCancelSlot did sid).2).undoPop).1 = false ∧
      (((s.scheduleCancelSlot did sid).2).undoPop).2
        = { (s.scheduleCancelSlot did sid).2 with undoStack := s.undoStack }) :=
  ⟨patientUpsert_undo, bookSlot_undo, triageInsert_undo, serveTriage_undo,
   bookFifo_undo, serveFifo_undo, cancelTaken_undo_fails⟩

/-- Concrete instantiation of `claim3_undo_partial_inverse`: an upsert undoes
exactly; a slot booking undoes back to the free slot; a triage serve undoes
back to the original heap; a cancel of an occupied slot cannot be undone. -/
theorem claim3_witness :
    ((wsBase 5 []).patientUpsert { id := 7, name := "N" }).undoPop
      = (true, wsBase 5 []) ∧
    ((((wsBase 5 [101]).enqueueRoutine 1 1 101).2).undoPop).1 = true ∧
    (((((wsBase 5 [101]).enqueueRoutine 1 1 101).2).undoPop).2).pendingCountTotal = 0 ∧
    ((mfind (((((wsBase 5 [101]).enqueueRoutine 1 1 101).2).undoPop).2).doctors
        1).getD {}).findSlot 101
      = some { slotId := 101, startTime := "s", endTime := "e",
               taken := false, tokenId := -1 } ∧
    (((((wsBase 5 []).triageInsert 1 3).2.serveNext 9).2).undoPop).1 = true ∧
    ((((((wsBase 5 []).triageInsert 1 3).2.serveNext 9).2).undoPop).2).triageHeap
      = ((((wsBase 5 []).triageInsert 1 3).2)).triageHeap ∧
    (((((wsBase 5 [101]).enqueueRoutine 1 1 101).2.scheduleCancelSlot 1
        101).2).undoPop).1 = false := by
  have h1 := claim3_undo_partial_inverse.1 (wsBase 5 [])
    ({ id := 7, name := "N" } : Patient)
  have h2 := claim3_undo_partial_inverse.2.1 (wsBase 5 [101]) 1 1 101
    ((mfind (wsBase 5 [101]).doctors 1).getD {})
    ((mfind (wsBase 5 [101]).patients 1).getD {})
    ((((mfind (wsBase 5 [101]).doctors 1).getD {}).findSlot 101).getD { slotId := 0 })
    rfl rfl (by decide) rfl (by decide) (by decide)
  have h4 := claim3_undo_partial_inverse.2.2.2.1 (((wsBase 5 []).triageInsert 1 3).2) 9
    ({ severity := 3, token := { tokenId := 1, patientId := 1, doctorId := -1, slotId := -1, type := TokenType.EMERGENCY } } : TriagedToken)
    [] (by decide) rfl (by simp)
  have h7 := claim3_undo_partial_inverse.2.2.2.2.2.2
    (((wsBase 5 [101]).enqueueRoutine 1 1 101).2) 1 101
    ((mfind (((wsBase 5 [101]).enqueueRoutine 1 1 101).2).doctors 1).getD {})
    ((((mfind (((wsBase 5 [101]).enqueueRoutine 1 1 101).2).doctors 1).getD
        {}).findSlot 101).getD { slotId := 0 })
    rfl rfl (by decide) (by decide)
  exact ⟨h1, by rw [h2], by rw [h2]; decide, by rw [h2]; decide,
         by rw [h4], by rw [h4], h7.2.2.1⟩

end Hosp
